import Mathlib

/-!
Shallow embedding of the `p2p_swap` Anchor program
(`src/anchor_project/p2p_swap/programs/p2p_swap/src/lib.rs`).

The program has four instructions: `initialize_user`, `create_offer`,
`accept_offer`, `cancel_offer`.  State lives in three kinds of on-chain
accounts: SPL token accounts (mint, owner/authority, amount), `Offer`
records and `UserProfile` records, each addressed by a program-derived
address (PDA).  We model addresses as an inductive type separating
ordinary (keypair) addresses from program-derived (keyless) ones, PDA
derivation as an injective serialization of the seed list, and each
instruction as a total function
`Chain → ctx → Except Err (Chain × List LedgerOp)` where the `Except`
failure case models the runtime discarding every effect of a failed
transaction (Solana transactions are atomic), and the `LedgerOp` trace
records the token-program CPIs a successful instruction performed.
-/

namespace P2PSwap

/-- An on-chain address: either an ordinary keypair address (`key`) or a
program-derived, keyless address (`derived`).  Real derivation is a hash
forced off the ed25519 curve; all the program relies on is that it is
deterministic, injective in the seeds, and yields addresses for which no
private key exists, which the two-constructor model captures. -/
inductive Pubkey where
  | key (bytes : List Nat)
  | derived (bytes : List Nat)
deriving DecidableEq, Repr

/-- Byte serialization of a pubkey, as used when a pubkey appears in a
seed list (`maker.key().as_ref()` etc.).  A leading tag keeps `key` and
`derived` addresses from colliding. -/
def Pubkey.toBytes : Pubkey → List Nat
  | .key b => 0 :: b
  | .derived b => 1 :: b

/-- `true` exactly on ordinary keypair addresses: the only addresses that
can sign a transaction from outside the program. -/
def Pubkey.isWallet : Pubkey → Bool
  | .key _ => true
  | .derived _ => false

/-- Length-prefixed concatenation of a seed list; injective, standing in
for the collision-free hash inside `create_program_address`. -/
def serializeSeeds : List (List Nat) → List Nat
  | [] => []
  | s :: rest => s.length :: (s ++ serializeSeeds rest)

/-- `create_program_address`: the deterministic keyless address for a
full seed list (bump included as the last seed). -/
def createProgramAddress (seeds : List (List Nat)) : Pubkey :=
  .derived (serializeSeeds seeds)

/-- The canonical bump returned by `find_program_address`; the model does
not need bump search, a single canonical value suffices. -/
def canonicalBump : Nat := 255

/-- `u64::MAX`. -/
def U64_MAX : Nat := 2 ^ 64 - 1

/-- Little-endian 8-byte encoding, as `u64::to_le_bytes` produces for the
`offer_id` seed. -/
def toLeBytes8 (n : Nat) : List Nat :=
  [n % 256, n / 256 % 256, n / 256 ^ 2 % 256, n / 256 ^ 3 % 256,
   n / 256 ^ 4 % 256, n / 256 ^ 5 % 256, n / 256 ^ 6 % 256, n / 256 ^ 7 % 256]

/-- Seed tag `b"offer"`. -/
def offerTag : List Nat := [111, 102, 102, 101, 114]

/-- Seed tag `b"vault"`. -/
def vaultTag : List Nat := [118, 97, 117, 108, 116]

/-- Seed tag `b"user_profile"`. -/
def userProfileTag : List Nat := [117, 115, 101, 114, 95, 112, 114, 111, 102, 105, 108, 101]

/-- Address of a user's `UserProfile` record:
seeds `[b"user_profile", authority.key()]` (canonical bump). -/
def userProfilePda (authority : Pubkey) : Pubkey :=
  createProgramAddress [userProfileTag, authority.toBytes, [canonicalBump]]

/-- Address of an `Offer` record:
seeds `[b"offer", maker.key(), offer_id.to_le_bytes()]` (canonical bump). -/
def offerPda (maker : Pubkey) (offer_id : Nat) : Pubkey :=
  createProgramAddress [offerTag, maker.toBytes, toLeBytes8 offer_id, [canonicalBump]]

/-- Address of an offer's escrow vault:
seeds `[b"vault", offer.key(), mint_offered.key()]` (canonical bump). -/
def vaultPda (offer : Pubkey) (mintOffered : Pubkey) : Pubkey :=
  createProgramAddress [vaultTag, offer.toBytes, mintOffered.toBytes, [canonicalBump]]

/-! ## Account data -/

/-- An SPL token account: `mint`, `owner` (the authority that may move or
close it) and `amount`. -/
structure TokenAccount where
  mint : Pubkey
  owner : Pubkey
  amount : Nat
deriving DecidableEq, Repr

/-- `UserProfile` account data (lib.rs `#[account] pub struct UserProfile`). -/
structure UserProfile where
  authority : Pubkey
  offer_count : Nat
deriving DecidableEq, Repr

/-- `Offer` account data (lib.rs `#[account] pub struct Offer`). -/
structure Offer where
  offer_id : Nat
  maker : Pubkey
  mint_offered : Pubkey
  mint_wanted : Pubkey
  amount_offered : Nat
  amount_wanted : Nat
  vault_bump : Nat
  bump : Nat
  created_at : Int
deriving DecidableEq, Repr

/-- Association-list lookup keyed by address. -/
def lookupA {α : Type} (m : List (Pubkey × α)) (k : Pubkey) : Option α :=
  match m with
  | [] => none
  | (k', v) :: rest => if k' = k then some v else lookupA rest k

/-- Insert or overwrite the entry at `k`. -/
def setA {α : Type} (m : List (Pubkey × α)) (k : Pubkey) (v : α) : List (Pubkey × α) :=
  (k, v) :: m.filter (fun p => p.1 ≠ k)

/-- Delete the entry at `k` (account closure). -/
def delA {α : Type} (m : List (Pubkey × α)) (k : Pubkey) : List (Pubkey × α) :=
  m.filter (fun p => p.1 ≠ k)

theorem lookupA_setA_self {α : Type} (m : List (Pubkey × α)) (k : Pubkey) (v : α) :
    lookupA (setA m k v) k = some v := by
  simp [lookupA, setA]

/-- On-chain state touched by the program: token accounts, `Offer`
records, `UserProfile` records and the set of existing mints. -/
structure Chain where
  tokens : List (Pubkey × TokenAccount)
  offers : List (Pubkey × Offer)
  profiles : List (Pubkey × UserProfile)
  mints : List Pubkey
deriving DecidableEq, Repr

def Chain.lookupTok (st : Chain) (k : Pubkey) : Option TokenAccount := lookupA st.tokens k

def Chain.lookupOff (st : Chain) (k : Pubkey) : Option Offer := lookupA st.offers k

def Chain.lookupProf (st : Chain) (k : Pubkey) : Option UserProfile := lookupA st.profiles k

def Chain.setTok (st : Chain) (k : Pubkey) (v : TokenAccount) : Chain :=
  { st with tokens := setA st.tokens k v }

def Chain.delTok (st : Chain) (k : Pubkey) : Chain :=
  { st with tokens := delA st.tokens k }

def Chain.setOff (st : Chain) (k : Pubkey) (v : Offer) : Chain :=
  { st with offers := setA st.offers k v }

def Chain.delOff (st : Chain) (k : Pubkey) : Chain :=
  { st with offers := delA st.offers k }

def Chain.setProf (st : Chain) (k : Pubkey) (v : UserProfile) : Chain :=
  { st with profiles := setA st.profiles k v }

/-! ## Errors and the token program -/

/-- Failure modes: the program's own `ErrorCode` variants together with
the framework / SPL-token errors an instruction can surface
(`AccountNotInitialized`, `ConstraintSeeds`, `AccountAlreadyInUse` from
Anchor account validation; `InsufficientFunds`, `MintMismatch`,
`OwnerMismatch`, `MissingSignature`, `AmountOverflow`,
`NonNativeHasBalance`, `AccountNotFound` from the token program). -/
inductive Err where
  | InvalidAmount
  | InsufficientBalance
  | Unauthorized
  | InvalidMint
  | CounterOverflow
  | UninitializedUserProfile
  | AccountNotInitialized
  | ConstraintSeeds
  | AccountAlreadyInUse
  | InsufficientFunds
  | MintMismatch
  | OwnerMismatch
  | MissingSignature
  | AmountOverflow
  | NonNativeHasBalance
  | AccountNotFound
deriving DecidableEq, Repr

/-- A token-program CPI performed by an instruction, recorded for the
authority-discipline claims. -/
inductive LedgerOp where
  | transferOp (source dest authority : Pubkey) (amount : Nat)
  | closeOp (account dest authority : Pubkey)
deriving DecidableEq, Repr

/-- `u64::checked_add`. -/
def checkedAddU64 (a b : Nat) : Option Nat :=
  if a + b ≤ U64_MAX then some (a + b) else none

/-- `require!(cond, err)` / an Anchor account constraint: continue with
`k` when the condition holds, abort with `e` otherwise. -/
def require (c : Prop) [Decidable c] (e : Err) {α : Type} (k : Except Err α) :
    Except Err α :=
  if c then k else .error e

/-- Deserialize a required account: continue with its data when it
exists, abort with `e` otherwise. -/
def need {β α : Type} (x : Option β) (e : Err) (k : β → Except Err α) :
    Except Err α :=
  match x with
  | some v => k v
  | none => .error e

/-- Sequence a fallible CPI (`token::transfer(...)?` etc.). -/
def afterOk {α : Type} (x : Except Err Chain) (k : Chain → Except Err α) :
    Except Err α :=
  match x with
  | .ok st => k st
  | .error e => .error e

/-- Generic sequencing of fallible steps (`?` on any result). -/
def exBind {α β : Type} (x : Except Err α) (k : α → Except Err β) : Except Err β :=
  match x with
  | .ok v => k v
  | .error e => .error e

theorem require_ok {c : Prop} [Decidable c] {e : Err} {α : Type}
    {k : Except Err α} {r : α} (h : require c e k = .ok r) : c ∧ k = .ok r := by
  by_cases hc : c
  · rw [require, if_pos hc] at h; exact ⟨hc, h⟩
  · rw [require, if_neg hc] at h; exact absurd h (by simp)

/-- SPL token `transfer`: source and destination must exist and share a
mint, the authority must be the source owner and must have signed
(`signers` lists the transaction signers plus any program-derived
signer provided via `invoke_signed` seeds), the source must cover the
amount, and the destination balance must not overflow `u64`.  A
self-transfer is validated but moves nothing. -/
def tokenTransfer (st : Chain) (source dest authority : Pubkey) (amount : Nat)
    (signers : List Pubkey) : Except Err Chain :=
  need (st.lookupTok source) .AccountNotFound fun s =>
  need (st.lookupTok dest) .AccountNotFound fun d =>
  require (amount ≤ s.amount) .InsufficientFunds <|
  require (s.mint = d.mint) .MintMismatch <|
  require (s.owner = authority) .OwnerMismatch <|
  require (authority ∈ signers) .MissingSignature <|
  if source = dest then .ok st
  else
    require (d.amount + amount ≤ U64_MAX) .AmountOverflow <|
    .ok ((st.setTok source { s with amount := s.amount - amount }).setTok dest
      { d with amount := d.amount + amount })

/-- SPL token `close_account`: the account must exist with zero balance,
and the authority must be its owner and must have signed.  Closure
removes the account (rent refund is outside the token balances we
track). -/
def tokenCloseAccount (st : Chain) (account _dest authority : Pubkey)
    (signers : List Pubkey) : Except Err Chain :=
  need (st.lookupTok account) .AccountNotFound fun s =>
  require (s.amount = 0) .NonNativeHasBalance <|
  require (s.owner = authority) .OwnerMismatch <|
  require (authority ∈ signers) .MissingSignature <|
  .ok (st.delTok account)

/-! ## Elimination lemmas for the primitives -/

/-! ## Instructions

Each instruction takes the accounts the caller supplies (the `ctx`
structures mirror the `#[derive(Accounts)]` structs), performs Anchor's
account validation and then the instruction body, and returns the new
chain state plus the trace of token CPIs.  Failure anywhere discards
everything (Solana transactions are atomic), which the `Except` result
encodes.  Accounts declared `Signer` in the Rust structs are assumed
signed: the runtime rejects the transaction otherwise, and only wallet
(`Pubkey.key`) addresses can produce such signatures. -/

/-- Accounts of `InitializeUser`. -/
structure InitializeUserCtx where
  user_profile : Pubkey
  authority : Pubkey
deriving DecidableEq, Repr

/-- `initialize_user`: creates the caller's `UserProfile` with
`offer_count = 0` at the PDA `[b"user_profile", authority]`; `init`
fails if the account already exists. -/
def initialize_user (st : Chain) (ctx : InitializeUserCtx) : Except Err Chain :=
  require (ctx.user_profile = userProfilePda ctx.authority) .ConstraintSeeds <|
  require ((st.lookupProf ctx.user_profile).isNone) .AccountAlreadyInUse <|
  .ok (st.setProf ctx.user_profile ⟨ctx.authority, 0⟩)

/-- Accounts of `CreateOffer`. -/
structure CreateOfferCtx where
  offer : Pubkey
  vault : Pubkey
  user_profile : Pubkey
  maker_token_account : Pubkey
  mint_offered : Pubkey
  mint_wanted : Pubkey
  maker : Pubkey
  authority : Pubkey
deriving DecidableEq, Repr

/-- `create_offer(amount_offered, amount_wanted)`.

Account validation (from `CreateOffer<'info>`): the user profile must
live at `[b"user_profile", maker]`, exist, and satisfy
`has_one = authority`; the offer is `init` at
`[b"offer", maker, user_profile.offer_count.to_le_bytes()]`; the vault
is `init` at `[b"vault", offer, mint_offered]` as a token account with
`token::mint = mint_offered, token::authority = vault`; the maker token
account must have `mint == mint_offered` (`InvalidMint`) and
`owner == maker` (`Unauthorized`); both mints must exist.

Body (lib.rs lines 21-72): require both amounts positive
(`InvalidAmount`); read `offer_id = offer_count` and
`checked_add(1)` the counter (`CounterOverflow`); populate every `Offer`
field; transfer `amount_offered` from the maker token account to the
vault, authorized by the maker's signature. -/
def create_offer (st : Chain) (ctx : CreateOfferCtx)
    (amount_offered amount_wanted : Nat) (now : Int) :
    Except Err (Chain × List LedgerOp) :=
  require (ctx.user_profile = userProfilePda ctx.maker) .ConstraintSeeds <|
  need (st.lookupProf ctx.user_profile) .AccountNotInitialized fun prof =>
  require (prof.authority = ctx.authority) .Unauthorized <|
  require (ctx.offer = offerPda ctx.maker prof.offer_count) .ConstraintSeeds <|
  require ((st.lookupOff ctx.offer).isNone) .AccountAlreadyInUse <|
  require (ctx.vault = vaultPda ctx.offer ctx.mint_offered) .ConstraintSeeds <|
  require ((st.lookupTok ctx.vault).isNone) .AccountAlreadyInUse <|
  require (ctx.mint_offered ∈ st.mints) .AccountNotInitialized <|
  require (ctx.mint_wanted ∈ st.mints) .AccountNotInitialized <|
  need (st.lookupTok ctx.maker_token_account) .AccountNotInitialized fun mta =>
  require (mta.mint = ctx.mint_offered) .InvalidMint <|
  require (mta.owner = ctx.maker) .Unauthorized <|
  let st1 := st.setTok ctx.vault ⟨ctx.mint_offered, ctx.vault, 0⟩
  require (amount_offered > 0) .InvalidAmount <|
  require (amount_wanted > 0) .InvalidAmount <|
  need (checkedAddU64 prof.offer_count 1) .CounterOverflow fun newCount =>
  let st2 := st1.setProf ctx.user_profile { prof with offer_count := newCount }
  let st3 := st2.setOff ctx.offer
    { offer_id := prof.offer_count
      maker := ctx.maker
      mint_offered := ctx.mint_offered
      mint_wanted := ctx.mint_wanted
      amount_offered := amount_offered
      amount_wanted := amount_wanted
      vault_bump := canonicalBump
      bump := canonicalBump
      created_at := now }
  afterOk (tokenTransfer st3 ctx.maker_token_account ctx.vault ctx.maker
      amount_offered [ctx.maker]) fun st4 =>
  .ok (st4, [.transferOp ctx.maker_token_account ctx.vault ctx.maker amount_offered])

/-- Accounts of `AcceptOffer` plus the `offer_id` instruction argument
used in the offer seeds. -/
structure AcceptOfferCtx where
  offer_id : Nat
  offer : Pubkey
  vault : Pubkey
  maker : Pubkey
  maker_token_account_wanted : Pubkey
  taker : Pubkey
  taker_token_account_wanted : Pubkey
  taker_token_account_offered : Pubkey
  mint_offered : Pubkey
  mint_wanted : Pubkey
deriving DecidableEq, Repr

/-- `accept_offer()`.

Account validation (from `AcceptOffer<'info>`): the offer must exist at
`[b"offer", maker, offer_id.to_le_bytes()]` with `bump = offer.bump`,
satisfy `has_one = maker` and is closed to the maker on success; the
vault must sit at `[b"vault", offer, mint_offered]` with
`bump = offer.vault_bump` and exist;
`maker_token_account_wanted.mint == offer.mint_wanted` and
`.owner == maker`; `taker_token_account_wanted.mint ==
offer.mint_offered` and `.owner == taker`;
`taker_token_account_offered.mint == offer.mint_wanted` and
`.owner == taker`; both mints must exist.

Body (lib.rs lines 75-135): require the supplied mint accounts to equal
the offer's recorded mints (`InvalidMint`); transfer `amount_wanted`
from `taker_token_account_offered` to `maker_token_account_wanted`
authorized by the taker; transfer `amount_offered` from the vault to
`taker_token_account_wanted` authorized by the vault itself via the
signer seeds `[b"vault", offer, mint_offered, vault_bump]`; close the
vault with the same derived signer; finally Anchor's `close = maker`
removes the `Offer` record. -/
def accept_offer (st : Chain) (ctx : AcceptOfferCtx) :
    Except Err (Chain × List LedgerOp) :=
  need (st.lookupOff ctx.offer) .AccountNotInitialized fun o =>
  require (ctx.offer = createProgramAddress
      [offerTag, ctx.maker.toBytes, toLeBytes8 ctx.offer_id, [o.bump]]) .ConstraintSeeds <|
  require (o.maker = ctx.maker) .Unauthorized <|
  require (ctx.vault = createProgramAddress
      [vaultTag, ctx.offer.toBytes, ctx.mint_offered.toBytes, [o.vault_bump]]) .ConstraintSeeds <|
  require ((st.lookupTok ctx.vault).isSome) .AccountNotInitialized <|
  need (st.lookupTok ctx.maker_token_account_wanted) .AccountNotInitialized fun mw =>
  require (mw.mint = o.mint_wanted) .InvalidMint <|
  require (mw.owner = ctx.maker) .Unauthorized <|
  need (st.lookupTok ctx.taker_token_account_wanted) .AccountNotInitialized fun tw =>
  require (tw.mint = o.mint_offered) .InvalidMint <|
  require (tw.owner = ctx.taker) .Unauthorized <|
  need (st.lookupTok ctx.taker_token_account_offered) .AccountNotInitialized fun tko =>
  require (tko.mint = o.mint_wanted) .InvalidMint <|
  require (tko.owner = ctx.taker) .Unauthorized <|
  require (ctx.mint_offered ∈ st.mints) .AccountNotInitialized <|
  require (ctx.mint_wanted ∈ st.mints) .AccountNotInitialized <|
  require (ctx.mint_offered = o.mint_offered) .InvalidMint <|
  require (ctx.mint_wanted = o.mint_wanted) .InvalidMint <|
  let vaultSigner := createProgramAddress
    [vaultTag, ctx.offer.toBytes, o.mint_offered.toBytes, [o.vault_bump]]
  afterOk (tokenTransfer st ctx.taker_token_account_offered
      ctx.maker_token_account_wanted ctx.taker o.amount_wanted [ctx.taker]) fun st1 =>
  afterOk (tokenTransfer st1 ctx.vault ctx.taker_token_account_wanted
      ctx.vault o.amount_offered [ctx.taker, vaultSigner]) fun st2 =>
  afterOk (tokenCloseAccount st2 ctx.vault ctx.maker ctx.vault
      [ctx.taker, vaultSigner]) fun st3 =>
  .ok (st3.delOff ctx.offer,
    [.transferOp ctx.taker_token_account_offered
        ctx.maker_token_account_wanted ctx.taker o.amount_wanted,
     .transferOp ctx.vault ctx.taker_token_account_wanted
        ctx.vault o.amount_offered,
     .closeOp ctx.vault ctx.maker ctx.vault])

/-- Accounts of `CancelOffer` plus the `offer_id` instruction argument. -/
structure CancelOfferCtx where
  offer_id : Nat
  offer : Pubkey
  vault : Pubkey
  maker_token_account : Pubkey
  mint_offered : Pubkey
  maker : Pubkey
deriving DecidableEq, Repr

/-- `cancel_offer()`.

Account validation (from `CancelOffer<'info>`): the offer must exist at
`[b"offer", maker, offer_id.to_le_bytes()]` with `bump = offer.bump`,
satisfy `has_one = maker` (`Unauthorized`) and is closed to the maker on
success; the maker signs; the vault must sit at
`[b"vault", offer, mint_offered]` with `bump = offer.vault_bump` and
exist; `maker_token_account.mint == offer.mint_offered` (`InvalidMint`)
and `.owner == maker` (`Unauthorized`); the mint must exist.

Body (lib.rs lines 138-174): transfer `amount_offered` from the vault
back to the maker token account, authorized by the vault itself via the
signer seeds `[b"vault", offer, mint_offered, vault_bump]`; close the
vault with the same derived signer; finally Anchor's `close = maker`
removes the `Offer` record. -/
def cancel_offer (st : Chain) (ctx : CancelOfferCtx) :
    Except Err (Chain × List LedgerOp) :=
  need (st.lookupOff ctx.offer) .AccountNotInitialized fun o =>
  require (ctx.offer = createProgramAddress
      [offerTag, ctx.maker.toBytes, toLeBytes8 ctx.offer_id, [o.bump]]) .ConstraintSeeds <|
  require (o.maker = ctx.maker) .Unauthorized <|
  require (ctx.vault = createProgramAddress
      [vaultTag, ctx.offer.toBytes, ctx.mint_offered.toBytes, [o.vault_bump]]) .ConstraintSeeds <|
  require ((st.lookupTok ctx.vault).isSome) .AccountNotInitialized <|
  need (st.lookupTok ctx.maker_token_account) .AccountNotInitialized fun mta =>
  require (mta.mint = o.mint_offered) .InvalidMint <|
  require (mta.owner = ctx.maker) .Unauthorized <|
  require (ctx.mint_offered ∈ st.mints) .AccountNotInitialized <|
  let vaultSigner := createProgramAddress
    [vaultTag, ctx.offer.toBytes, o.mint_offered.toBytes, [o.vault_bump]]
  afterOk (tokenTransfer st ctx.vault ctx.maker_token_account ctx.vault
      o.amount_offered [ctx.maker, vaultSigner]) fun st1 =>
  afterOk (tokenCloseAccount st1 ctx.vault ctx.maker ctx.vault
      [ctx.maker, vaultSigner]) fun st2 =>
  .ok (st2.delOff ctx.offer,
    [.transferOp ctx.vault ctx.maker_token_account ctx.vault o.amount_offered,
     .closeOp ctx.vault ctx.maker ctx.vault])

/-- The maker's current offer counter (`0` when no profile exists). -/
def offerCountOf (st : Chain) (maker : Pubkey) : Nat :=
  match st.lookupProf (userProfilePda maker) with
  | some p => p.offer_count
  | none => 0

/-- Run a list of `create_offer` calls in sequence (all-or-nothing),
collecting the `offer_id` stored on each created offer. -/
def runCreates : Chain → List (CreateOfferCtx × Nat × Nat × Int) →
    Except Err (Chain × List Nat)
  | st, [] => .ok (st, [])
  | st, (c, a, w, t) :: rest =>
    exBind (create_offer st c a w t) fun p =>
    need (p.1.lookupOff c.offer) .AccountNotFound fun o =>
    exBind (runCreates p.1 rest) fun q =>
    .ok (q.1, o.offer_id :: q.2)

/-- Well-formedness of the offer store: every stored offer sits at its
canonically derived address, carries the canonical bumps, and has a
`u64`-representable id.  `create_offer` only ever stores offers of this
shape, and the other instructions only delete offers. -/
def WFOffers (st : Chain) : Prop :=
  ∀ p ∈ st.offers, p.1 = offerPda p.2.maker p.2.offer_id ∧
    p.2.bump = canonicalBump ∧ p.2.vault_bump = canonicalBump ∧
    p.2.offer_id < 2 ^ 64

/-! ## A concrete scenario (spec section 8): maker offers 100 A for 50 B -/

def sampleMaker : Pubkey := .key [1]

def sampleTaker : Pubkey := .key [2]

def mintA : Pubkey := .key [10]

def mintB : Pubkey := .key [11]

def makerAcctA : Pubkey := .key [20]

def makerAcctB : Pubkey := .key [21]

def takerAcctA : Pubkey := .key [22]

def takerAcctB : Pubkey := .key [23]

/-- Initial chain: maker holds 100 A, taker holds 50 B. -/
def chain0 : Chain :=
  { tokens := [(makerAcctA, ⟨mintA, sampleMaker, 100⟩),
               (makerAcctB, ⟨mintB, sampleMaker, 0⟩),
               (takerAcctA, ⟨mintA, sampleTaker, 0⟩),
               (takerAcctB, ⟨mintB, sampleTaker, 50⟩)],
    offers := [], profiles := [], mints := [mintA, mintB] }

/-- After `initialize_user` by the maker. -/
def chain1 : Chain :=
  match initialize_user chain0 ⟨userProfilePda sampleMaker, sampleMaker⟩ with
  | .ok st => st
  | .error _ => chain0

def sampleCreateCtx : CreateOfferCtx :=
  { offer := offerPda sampleMaker 0
    vault := vaultPda (offerPda sampleMaker 0) mintA
    user_profile := userProfilePda sampleMaker
    maker_token_account := makerAcctA
    mint_offered := mintA
    mint_wanted := mintB
    maker := sampleMaker
    authority := sampleMaker }

/-- After `create_offer(100, 50)` by the maker. -/
def chain2 : Chain :=
  match create_offer chain1 sampleCreateCtx 100 50 7 with
  | .ok p => p.1
  | .error _ => chain1

def sampleAcceptCtx : AcceptOfferCtx :=
  { offer_id := 0
    offer := offerPda sampleMaker 0
    vault := vaultPda (offerPda sampleMaker 0) mintA
    maker := sampleMaker
    maker_token_account_wanted := makerAcctB
    taker := sampleTaker
    taker_token_account_wanted := takerAcctA
    taker_token_account_offered := takerAcctB
    mint_offered := mintA
    mint_wanted := mintB }

/-- After `accept_offer` by the taker. -/
def chain3 : Chain :=
  match accept_offer chain2 sampleAcceptCtx with
  | .ok p => p.1
  | .error _ => chain2

def sampleCancelCtx : CancelOfferCtx :=
  { offer_id := 0
    offer := offerPda sampleMaker 0
    vault := vaultPda (offerPda sampleMaker 0) mintA
    maker_token_account := makerAcctA
    mint_offered := mintA
    maker := sampleMaker }

/-- A second B-mint account of the maker, for the self-accept scenario. -/
def makerAcctB2 : Pubkey := .key [24]

/-- Self-accept scenario: the maker owns all the accounts, including a
funded B account to pay themselves with. -/
def chain0self : Chain :=
  { tokens := [(makerAcctA, ⟨mintA, sampleMaker, 100⟩),
               (makerAcctB, ⟨mintB, sampleMaker, 0⟩),
               (makerAcctB2, ⟨mintB, sampleMaker, 50⟩)],
    offers := [], profiles := [], mints := [mintA, mintB] }

def chain1self : Chain :=
  match initialize_user chain0self ⟨userProfilePda sampleMaker, sampleMaker⟩ with
  | .ok st => st
  | .error _ => chain0self

def chain2self : Chain :=
  match create_offer chain1self sampleCreateCtx 100 50 7 with
  | .ok p => p.1
  | .error _ => chain1self

/-- The maker accepts their own offer: `taker := sampleMaker`. -/
def sampleSelfAcceptCtx : AcceptOfferCtx :=
  { offer_id := 0
    offer := offerPda sampleMaker 0
    vault := vaultPda (offerPda sampleMaker 0) mintA
    maker := sampleMaker
    maker_token_account_wanted := makerAcctB
    taker := sampleMaker
    taker_token_account_wanted := makerAcctA
    taker_token_account_offered := makerAcctB2
    mint_offered := mintA
    mint_wanted := mintB }

/-- Accounts for the maker's second offer (`offer_id = 1`). -/
def sampleCreateCtx2 : CreateOfferCtx :=
  { offer := offerPda sampleMaker 1
    vault := vaultPda (offerPda sampleMaker 1) mintA
    user_profile := userProfilePda sampleMaker
    maker_token_account := makerAcctA
    mint_offered := mintA
    mint_wanted := mintB
    maker := sampleMaker
    authority := sampleMaker }

/-- Two sequential `create_offer` calls by the maker. -/
def sampleCreateSteps : List (CreateOfferCtx × Nat × Nat × Int) :=
  [(sampleCreateCtx, 10, 50, 7), (sampleCreateCtx2, 20, 30, 8)]

/-- State after the two sequential creates. -/
def chainAfterTwo : Chain :=
  match runCreates chain1 sampleCreateSteps with
  | .ok p => p.1
  | .error _ => chain1

/-- A state whose maker profile counter sits at `u64::MAX`. -/
def chainMax : Chain :=
  { tokens := [(makerAcctA, ⟨mintA, sampleMaker, 100⟩)],
    offers := [],
    profiles := [(userProfilePda sampleMaker, ⟨sampleMaker, U64_MAX⟩)],
    mints := [mintA, mintB] }

/-- Accounts for a `create_offer` attempt at the saturated counter. -/
def sampleCreateCtxMax : CreateOfferCtx :=
  { offer := offerPda sampleMaker U64_MAX
    vault := vaultPda (offerPda sampleMaker U64_MAX) mintA
    user_profile := userProfilePda sampleMaker
    maker_token_account := makerAcctA
    mint_offered := mintA
    mint_wanted := mintB
    maker := sampleMaker
    authority := sampleMaker }

/-! ## Theorems: basic lemmas about the embedding -/

theorem Pubkey.toBytes_inj {a b : Pubkey} (h : a.toBytes = b.toBytes) : a = b := by
  cases a <;> cases b <;> simp [Pubkey.toBytes] at h <;> simp [h]

theorem serializeSeeds_inj : ∀ {xs ys : List (List Nat)},
    serializeSeeds xs = serializeSeeds ys → xs = ys := by
  intro xs
  induction xs with
  | nil =>
    intro ys h
    cases ys with
    | nil => rfl
    | cons y ys => simp [serializeSeeds] at h
  | cons x xs ih =>
    intro ys h
    cases ys with
    | nil => simp [serializeSeeds] at h
    | cons y ys =>
      simp only [serializeSeeds, List.cons.injEq] at h
      obtain ⟨hlen, happ⟩ := h
      obtain ⟨hx, hrest⟩ := List.append_inj happ hlen
      exact by rw [hx, ih hrest]

theorem createProgramAddress_inj {xs ys : List (List Nat)}
    (h : createProgramAddress xs = createProgramAddress ys) : xs = ys := by
  simpa [createProgramAddress] using serializeSeeds_inj (by
    simpa [createProgramAddress, Pubkey.derived.injEq] using h)

theorem toLeBytes8_inj {m n : Nat} (hm : m < 2 ^ 64) (hn : n < 2 ^ 64)
    (h : toLeBytes8 m = toLeBytes8 n) : m = n := by
  simp only [toLeBytes8, List.cons.injEq, and_true] at h
  omega

theorem userProfilePda_inj {a b : Pubkey} (h : userProfilePda a = userProfilePda b) :
    a = b := by
  have := createProgramAddress_inj h
  simp only [List.cons.injEq] at this
  exact Pubkey.toBytes_inj this.2.1

theorem offerPda_inj {m1 m2 : Pubkey} {i1 i2 : Nat} (h1 : i1 < 2 ^ 64) (h2 : i2 < 2 ^ 64)
    (h : offerPda m1 i1 = offerPda m2 i2) : m1 = m2 ∧ i1 = i2 := by
  have := createProgramAddress_inj h
  simp only [List.cons.injEq] at this
  exact ⟨Pubkey.toBytes_inj this.2.1, toLeBytes8_inj h1 h2 this.2.2.1⟩

theorem lookupA_filter_ne {α : Type} (m : List (Pubkey × α)) (k k' : Pubkey)
    (h : k' ≠ k) : lookupA (m.filter (fun p => p.1 ≠ k)) k' = lookupA m k' := by
  induction m with
  | nil => rfl
  | cons p rest ih =>
    by_cases hp : p.1 = k
    · rw [List.filter_cons_of_neg (by simp [hp])]
      have hne : ¬ p.1 = k' := by rw [hp]; exact Ne.symm h
      simp only [lookupA, if_neg hne]
      exact ih
    · rw [List.filter_cons_of_pos (by simp [hp])]
      by_cases hpk : p.1 = k'
      · simp only [lookupA, if_pos hpk]
      · simp only [lookupA, if_neg hpk]
        exact ih

theorem lookupA_setA_other {α : Type} (m : List (Pubkey × α)) (k k' : Pubkey) (v : α)
    (h : k' ≠ k) : lookupA (setA m k v) k' = lookupA m k' := by
  simp only [setA, lookupA, if_neg (Ne.symm h)]
  exact lookupA_filter_ne m k k' h

theorem lookupA_delA_self {α : Type} (m : List (Pubkey × α)) (k : Pubkey) :
    lookupA (delA m k) k = none := by
  induction m with
  | nil => simp [delA, lookupA]
  | cons p rest ih =>
    by_cases hp : p.1 = k
    · simpa [delA, List.filter, hp] using ih
    · simpa [delA, List.filter, hp, lookupA] using ih

theorem lookupA_delA_other {α : Type} (m : List (Pubkey × α)) (k k' : Pubkey)
    (h : k' ≠ k) : lookupA (delA m k) k' = lookupA m k' :=
  lookupA_filter_ne m k k' h

theorem require_pos {c : Prop} [Decidable c] {e : Err} {α : Type}
    {k : Except Err α} (hc : c) : require c e k = k := by
  rw [require, if_pos hc]

theorem require_neg {c : Prop} [Decidable c] {e : Err} {α : Type}
    {k : Except Err α} (hc : ¬c) : require c e k = .error e := by
  rw [require, if_neg hc]

theorem need_ok {β α : Type} {x : Option β} {e : Err} {k : β → Except Err α}
    {r : α} (h : need x e k = .ok r) : ∃ v, x = some v ∧ k v = .ok r := by
  cases x with
  | none => exact absurd h (by simp [need])
  | some v => exact ⟨v, rfl, h⟩

theorem need_some {β α : Type} {e : Err} {k : β → Except Err α} (v : β) :
    need (some v) e k = k v := rfl

theorem need_none {β α : Type} {e : Err} {k : β → Except Err α} :
    need (none : Option β) e k = .error e := rfl

theorem afterOk_ok {α : Type} {x : Except Err Chain} {k : Chain → Except Err α}
    {r : α} (h : afterOk x k = .ok r) : ∃ st, x = .ok st ∧ k st = .ok r := by
  cases x with
  | error e => exact absurd h (by simp [afterOk])
  | ok st => exact ⟨st, rfl, h⟩

theorem afterOk_ok_arg {α : Type} {x : Except Err Chain} {k : Chain → Except Err α}
    {st : Chain} (h : x = .ok st) : afterOk x k = k st := by
  rw [h]; rfl

theorem exBind_ok {α β : Type} {x : Except Err α} {k : α → Except Err β} {r : β}
    (h : exBind x k = .ok r) : ∃ v, x = .ok v ∧ k v = .ok r := by
  cases x with
  | error e => exact absurd h (by simp [exBind])
  | ok v => exact ⟨v, rfl, h⟩

theorem lookupA_some_mem {α : Type} {m : List (Pubkey × α)} {k : Pubkey} {v : α}
    (h : lookupA m k = some v) : (k, v) ∈ m := by
  induction m with
  | nil => exact absurd h (by simp [lookupA])
  | cons p rest ih =>
    obtain ⟨a, b⟩ := p
    by_cases hp : a = k
    · rw [lookupA, if_pos hp] at h
      rw [Option.some_inj] at h
      rw [← hp, ← h]
      exact List.mem_cons_self _ _
    · rw [lookupA, if_neg hp] at h
      exact List.mem_cons_of_mem _ (ih h)

theorem checkedAddU64_some {a b v : Nat} (h : checkedAddU64 a b = some v) :
    a + b ≤ U64_MAX ∧ v = a + b := by
  by_cases hc : a + b ≤ U64_MAX
  · rw [checkedAddU64, if_pos hc] at h
    exact ⟨hc, (Option.some.inj h).symm⟩
  · rw [checkedAddU64, if_neg hc] at h
    exact absurd h (by simp)

theorem tokenTransfer_ok {st st' : Chain} {source dest authority : Pubkey}
    {amount : Nat} {signers : List Pubkey}
    (h : tokenTransfer st source dest authority amount signers = .ok st') :
    ∃ s d, st.lookupTok source = some s ∧ st.lookupTok dest = some d ∧
      amount ≤ s.amount ∧ s.mint = d.mint ∧ s.owner = authority ∧
      authority ∈ signers ∧
      ((source = dest ∧ st' = st) ∨
       (source ≠ dest ∧ d.amount + amount ≤ U64_MAX ∧
        st' = (st.setTok source { s with amount := s.amount - amount }).setTok dest
          { d with amount := d.amount + amount })) := by
  unfold tokenTransfer at h
  obtain ⟨s, hs, h⟩ := need_ok h
  obtain ⟨d, hd, h⟩ := need_ok h
  obtain ⟨h1, h⟩ := require_ok h
  obtain ⟨h2, h⟩ := require_ok h
  obtain ⟨h3, h⟩ := require_ok h
  obtain ⟨h4, h⟩ := require_ok h
  by_cases hsd : source = dest
  · rw [if_pos hsd] at h
    exact ⟨s, d, hs, hd, h1, h2, h3, h4, .inl ⟨hsd, (Except.ok.inj h).symm⟩⟩
  · rw [if_neg hsd] at h
    obtain ⟨h5, h⟩ := require_ok h
    exact ⟨s, d, hs, hd, h1, h2, h3, h4, .inr ⟨hsd, h5, (Except.ok.inj h).symm⟩⟩

theorem tokenCloseAccount_ok {st st' : Chain} {account dst authority : Pubkey}
    {signers : List Pubkey}
    (h : tokenCloseAccount st account dst authority signers = .ok st') :
    ∃ s, st.lookupTok account = some s ∧ s.amount = 0 ∧ s.owner = authority ∧
      authority ∈ signers ∧ st' = st.delTok account := by
  unfold tokenCloseAccount at h
  obtain ⟨s, hs, h⟩ := need_ok h
  obtain ⟨h1, h⟩ := require_ok h
  obtain ⟨h2, h⟩ := require_ok h
  obtain ⟨h3, h⟩ := require_ok h
  exact ⟨s, hs, h1, h2, h3, (Except.ok.inj h).symm⟩

theorem tokenTransfer_frame {st st' : Chain} {source dest authority : Pubkey}
    {amount : Nat} {signers : List Pubkey}
    (h : tokenTransfer st source dest authority amount signers = .ok st') :
    st'.offers = st.offers ∧ st'.profiles = st.profiles ∧ st'.mints = st.mints := by
  obtain ⟨s, d, -, -, -, -, -, -, hbr⟩ := tokenTransfer_ok h
  rcases hbr with ⟨-, rfl⟩ | ⟨-, -, rfl⟩ <;> exact ⟨rfl, rfl, rfl⟩

theorem tokenCloseAccount_frame {st st' : Chain} {account dst authority : Pubkey}
    {signers : List Pubkey}
    (h : tokenCloseAccount st account dst authority signers = .ok st') :
    st'.offers = st.offers ∧ st'.profiles = st.profiles ∧ st'.mints = st.mints := by
  obtain ⟨s, -, -, -, -, rfl⟩ := tokenCloseAccount_ok h
  exact ⟨rfl, rfl, rfl⟩

theorem Chain.lookupTok_setTok_self (st : Chain) (k : Pubkey) (v : TokenAccount) :
    (st.setTok k v).lookupTok k = some v := lookupA_setA_self _ _ _

theorem Chain.lookupTok_setTok_other (st : Chain) {k k' : Pubkey} (v : TokenAccount)
    (h : k' ≠ k) : (st.setTok k v).lookupTok k' = st.lookupTok k' :=
  lookupA_setA_other _ _ _ _ h

theorem Chain.lookupTok_delTok_self (st : Chain) (k : Pubkey) :
    (st.delTok k).lookupTok k = none := lookupA_delA_self _ _

theorem Chain.lookupTok_delTok_other (st : Chain) {k k' : Pubkey}
    (h : k' ≠ k) : (st.delTok k).lookupTok k' = st.lookupTok k' :=
  lookupA_delA_other _ _ _ h

theorem Chain.lookupOff_setOff_self (st : Chain) (k : Pubkey) (v : Offer) :
    (st.setOff k v).lookupOff k = some v := lookupA_setA_self _ _ _

theorem Chain.lookupOff_setOff_other (st : Chain) {k k' : Pubkey} (v : Offer)
    (h : k' ≠ k) : (st.setOff k v).lookupOff k' = st.lookupOff k' :=
  lookupA_setA_other _ _ _ _ h

theorem Chain.lookupOff_delOff_self (st : Chain) (k : Pubkey) :
    (st.delOff k).lookupOff k = none := lookupA_delA_self _ _

theorem Chain.lookupOff_delOff_other (st : Chain) {k k' : Pubkey}
    (h : k' ≠ k) : (st.delOff k).lookupOff k' = st.lookupOff k' :=
  lookupA_delA_other _ _ _ h

theorem Chain.lookupProf_setProf_self (st : Chain) (k : Pubkey) (v : UserProfile) :
    (st.setProf k v).lookupProf k = some v := lookupA_setA_self _ _ _

theorem Chain.lookupProf_setProf_other (st : Chain) {k k' : Pubkey} (v : UserProfile)
    (h : k' ≠ k) : (st.setProf k v).lookupProf k' = st.lookupProf k' :=
  lookupA_setA_other _ _ _ _ h

/-- Anatomy of a successful `create_offer`: every validation and body
condition holds, and the result is the explicit state update plus the
single maker-to-vault transfer in the trace. -/
theorem create_offer_ok {st : Chain} {ctx : CreateOfferCtx} {a w : Nat} {now : Int}
    {st' : Chain} {tr : List LedgerOp}
    (h : create_offer st ctx a w now = .ok (st', tr)) :
    ∃ prof mta,
      ctx.user_profile = userProfilePda ctx.maker ∧
      st.lookupProf ctx.user_profile = some prof ∧
      prof.authority = ctx.authority ∧
      ctx.offer = offerPda ctx.maker prof.offer_count ∧
      st.lookupOff ctx.offer = none ∧
      ctx.vault = vaultPda ctx.offer ctx.mint_offered ∧
      st.lookupTok ctx.vault = none ∧
      ctx.mint_offered ∈ st.mints ∧ ctx.mint_wanted ∈ st.mints ∧
      st.lookupTok ctx.maker_token_account = some mta ∧
      mta.mint = ctx.mint_offered ∧ mta.owner = ctx.maker ∧
      0 < a ∧ 0 < w ∧ prof.offer_count + 1 ≤ U64_MAX ∧
      tokenTransfer
        (((st.setTok ctx.vault ⟨ctx.mint_offered, ctx.vault, 0⟩).setProf
            ctx.user_profile { prof with offer_count := prof.offer_count + 1 }).setOff
          ctx.offer
          ⟨prof.offer_count, ctx.maker, ctx.mint_offered, ctx.mint_wanted, a, w,
            canonicalBump, canonicalBump, now⟩)
        ctx.maker_token_account ctx.vault ctx.maker a [ctx.maker] = .ok st' ∧
      tr = [.transferOp ctx.maker_token_account ctx.vault ctx.maker a] := by
  unfold create_offer at h
  obtain ⟨h1, h⟩ := require_ok h
  obtain ⟨prof, hprof, h⟩ := need_ok h
  obtain ⟨h2, h⟩ := require_ok h
  obtain ⟨h3, h⟩ := require_ok h
  obtain ⟨h4, h⟩ := require_ok h
  obtain ⟨h5, h⟩ := require_ok h
  obtain ⟨h6, h⟩ := require_ok h
  obtain ⟨h7, h⟩ := require_ok h
  obtain ⟨h8, h⟩ := require_ok h
  obtain ⟨mta, hmta, h⟩ := need_ok h
  obtain ⟨h9, h⟩ := require_ok h
  obtain ⟨h10, h⟩ := require_ok h
  obtain ⟨h11, h⟩ := require_ok h
  obtain ⟨h12, h⟩ := require_ok h
  obtain ⟨nc, hnc, h⟩ := need_ok h
  obtain ⟨hle, hnceq⟩ := checkedAddU64_some hnc
  subst hnceq
  obtain ⟨st4, htr, h⟩ := afterOk_ok h
  have hpair := Except.ok.inj h
  injection hpair with e1 e2
  subst e1
  subst e2
  exact ⟨prof, mta, h1, hprof, h2, h3, Option.isNone_iff_eq_none.mp h4, h5,
    Option.isNone_iff_eq_none.mp h6, h7, h8, hmta, h9, h10, h11, h12, hle, htr, rfl⟩

/-- Anatomy of a successful `accept_offer`. -/
theorem accept_offer_ok {st : Chain} {ctx : AcceptOfferCtx} {st' : Chain}
    {tr : List LedgerOp} (h : accept_offer st ctx = .ok (st', tr)) :
    ∃ o mw tw tko st1 st2 st3,
      st.lookupOff ctx.offer = some o ∧
      ctx.offer = createProgramAddress
        [offerTag, ctx.maker.toBytes, toLeBytes8 ctx.offer_id, [o.bump]] ∧
      o.maker = ctx.maker ∧
      ctx.vault = createProgramAddress
        [vaultTag, ctx.offer.toBytes, ctx.mint_offered.toBytes, [o.vault_bump]] ∧
      (st.lookupTok ctx.vault).isSome ∧
      st.lookupTok ctx.maker_token_account_wanted = some mw ∧
      mw.mint = o.mint_wanted ∧ mw.owner = ctx.maker ∧
      st.lookupTok ctx.taker_token_account_wanted = some tw ∧
      tw.mint = o.mint_offered ∧ tw.owner = ctx.taker ∧
      st.lookupTok ctx.taker_token_account_offered = some tko ∧
      tko.mint = o.mint_wanted ∧ tko.owner = ctx.taker ∧
      ctx.mint_offered ∈ st.mints ∧ ctx.mint_wanted ∈ st.mints ∧
      ctx.mint_offered = o.mint_offered ∧ ctx.mint_wanted = o.mint_wanted ∧
      tokenTransfer st ctx.taker_token_account_offered ctx.maker_token_account_wanted
        ctx.taker o.amount_wanted [ctx.taker] = .ok st1 ∧
      tokenTransfer st1 ctx.vault ctx.taker_token_account_wanted ctx.vault
        o.amount_offered [ctx.taker, createProgramAddress
          [vaultTag, ctx.offer.toBytes, o.mint_offered.toBytes, [o.vault_bump]]] = .ok st2 ∧
      tokenCloseAccount st2 ctx.vault ctx.maker ctx.vault
        [ctx.taker, createProgramAddress
          [vaultTag, ctx.offer.toBytes, o.mint_offered.toBytes, [o.vault_bump]]] = .ok st3 ∧
      st' = st3.delOff ctx.offer ∧
      tr = [.transferOp ctx.taker_token_account_offered ctx.maker_token_account_wanted
              ctx.taker o.amount_wanted,
            .transferOp ctx.vault ctx.taker_token_account_wanted ctx.vault o.amount_offered,
            .closeOp ctx.vault ctx.maker ctx.vault] := by
  unfold accept_offer at h
  obtain ⟨o, ho, h⟩ := need_ok h
  obtain ⟨h1, h⟩ := require_ok h
  obtain ⟨h2, h⟩ := require_ok h
  obtain ⟨h3, h⟩ := require_ok h
  obtain ⟨h4, h⟩ := require_ok h
  obtain ⟨mw, hmw, h⟩ := need_ok h
  obtain ⟨h5, h⟩ := require_ok h
  obtain ⟨h6, h⟩ := require_ok h
  obtain ⟨tw, htw, h⟩ := need_ok h
  obtain ⟨h7, h⟩ := require_ok h
  obtain ⟨h8, h⟩ := require_ok h
  obtain ⟨tko, htko, h⟩ := need_ok h
  obtain ⟨h9, h⟩ := require_ok h
  obtain ⟨h10, h⟩ := require_ok h
  obtain ⟨h11, h⟩ := require_ok h
  obtain ⟨h12, h⟩ := require_ok h
  obtain ⟨h13, h⟩ := require_ok h
  obtain ⟨h14, h⟩ := require_ok h
  obtain ⟨st1, hcpi1, h⟩ := afterOk_ok h
  obtain ⟨st2, hcpi2, h⟩ := afterOk_ok h
  obtain ⟨st3, hcpi3, h⟩ := afterOk_ok h
  have hpair := Except.ok.inj h
  injection hpair with e1 e2
  subst e1
  subst e2
  exact ⟨o, mw, tw, tko, st1, st2, st3, ho, h1, h2, h3, h4, hmw, h5, h6, htw, h7, h8,
    htko, h9, h10, h11, h12, h13, h14, hcpi1, hcpi2, hcpi3, rfl, rfl⟩

/-- Anatomy of a successful `cancel_offer`. -/
theorem cancel_offer_ok {st : Chain} {ctx : CancelOfferCtx} {st' : Chain}
    {tr : List LedgerOp} (h : cancel_offer st ctx = .ok (st', tr)) :
    ∃ o mta st1 st2,
      st.lookupOff ctx.offer = some o ∧
      ctx.offer = createProgramAddress
        [offerTag, ctx.maker.toBytes, toLeBytes8 ctx.offer_id, [o.bump]] ∧
      o.maker = ctx.maker ∧
      ctx.vault = createProgramAddress
        [vaultTag, ctx.offer.toBytes, ctx.mint_offered.toBytes, [o.vault_bump]] ∧
      (st.lookupTok ctx.vault).isSome ∧
      st.lookupTok ctx.maker_token_account = some mta ∧
      mta.mint = o.mint_offered ∧ mta.owner = ctx.maker ∧
      ctx.mint_offered ∈ st.mints ∧
      tokenTransfer st ctx.vault ctx.maker_token_account ctx.vault o.amount_offered
        [ctx.maker, createProgramAddress
          [vaultTag, ctx.offer.toBytes, o.mint_offered.toBytes, [o.vault_bump]]] = .ok st1 ∧
      tokenCloseAccount st1 ctx.vault ctx.maker ctx.vault
        [ctx.maker, createProgramAddress
          [vaultTag, ctx.offer.toBytes, o.mint_offered.toBytes, [o.vault_bump]]] = .ok st2 ∧
      st' = st2.delOff ctx.offer ∧
      tr = [.transferOp ctx.vault ctx.maker_token_account ctx.vault o.amount_offered,
            .closeOp ctx.vault ctx.maker ctx.vault] := by
  unfold cancel_offer at h
  obtain ⟨o, ho, h⟩ := need_ok h
  obtain ⟨h1, h⟩ := require_ok h
  obtain ⟨h2, h⟩ := require_ok h
  obtain ⟨h3, h⟩ := require_ok h
  obtain ⟨h4, h⟩ := require_ok h
  obtain ⟨mta, hmta, h⟩ := need_ok h
  obtain ⟨h5, h⟩ := require_ok h
  obtain ⟨h6, h⟩ := require_ok h
  obtain ⟨h7, h⟩ := require_ok h
  obtain ⟨st1, hcpi1, h⟩ := afterOk_ok h
  obtain ⟨st2, hcpi2, h⟩ := afterOk_ok h
  have hpair := Except.ok.inj h
  injection hpair with e1 e2
  subst e1
  subst e2
  exact ⟨o, mta, st1, st2, ho, h1, h2, h3, h4, hmta, h5, h6, h7, hcpi1, hcpi2, rfl, rfl⟩

/-- Combined effects of a successful `create_offer`, phrased through
lookups on the pre and post states. -/
theorem create_offer_effects {st : Chain} {ctx : CreateOfferCtx} {a w : Nat}
    {now : Int} {st' : Chain} {tr : List LedgerOp}
    (h : create_offer st ctx a w now = .ok (st', tr)) :
    ∃ prof mta,
      ctx.user_profile = userProfilePda ctx.maker ∧
      st.lookupProf (userProfilePda ctx.maker) = some prof ∧
      st.lookupTok ctx.maker_token_account = some mta ∧
      st.lookupOff ctx.offer = none ∧
      st.lookupTok ctx.vault = none ∧
      ctx.offer = offerPda ctx.maker prof.offer_count ∧
      ctx.vault = vaultPda ctx.offer ctx.mint_offered ∧
      mta.mint = ctx.mint_offered ∧ mta.owner = ctx.maker ∧
      0 < a ∧ 0 < w ∧ a ≤ mta.amount ∧ prof.offer_count + 1 ≤ U64_MAX ∧
      st'.lookupOff ctx.offer = some
        ⟨prof.offer_count, ctx.maker, ctx.mint_offered, ctx.mint_wanted, a, w,
         canonicalBump, canonicalBump, now⟩ ∧
      st'.lookupTok ctx.vault = some ⟨ctx.mint_offered, ctx.vault, a⟩ ∧
      st'.lookupTok ctx.maker_token_account = some { mta with amount := mta.amount - a } ∧
      st'.lookupProf (userProfilePda ctx.maker) =
        some { prof with offer_count := prof.offer_count + 1 } ∧
      st'.offers = setA st.offers ctx.offer
        ⟨prof.offer_count, ctx.maker, ctx.mint_offered, ctx.mint_wanted, a, w,
         canonicalBump, canonicalBump, now⟩ := by
  obtain ⟨prof, mta, hpda, hprof, hauth, hopda, hoff, hvpda, hvault, hm1, hm2, hmta,
    hmint, hown, ha0, hw, hle, htrans, htrace⟩ := create_offer_ok h
  have hneq : ctx.maker_token_account ≠ ctx.vault := by
    intro he
    rw [he] at hmta
    rw [hvault] at hmta
    exact Option.noConfusion hmta
  obtain ⟨s, d, hs, hd, hbal, hmm, how, hsig, hbr⟩ := tokenTransfer_ok htrans
  have hs' : s = mta := by
    have h1 : st.lookupTok ctx.maker_token_account = some s := by
      rw [show ∀ X : Chain, X.lookupTok ctx.maker_token_account =
        lookupA X.tokens ctx.maker_token_account from fun _ => rfl] at hs ⊢
      rw [show (((st.setTok ctx.vault ⟨ctx.mint_offered, ctx.vault, 0⟩).setProf
          ctx.user_profile { prof with offer_count := prof.offer_count + 1 }).setOff
          ctx.offer ⟨prof.offer_count, ctx.maker, ctx.mint_offered, ctx.mint_wanted,
            a, w, canonicalBump, canonicalBump, now⟩).tokens =
          setA st.tokens ctx.vault ⟨ctx.mint_offered, ctx.vault, 0⟩ from rfl] at hs
      rw [lookupA_setA_other _ _ _ _ hneq] at hs
      exact hs
    rw [hmta] at h1
    exact (Option.some.inj h1).symm
  have hd' : d = ⟨ctx.mint_offered, ctx.vault, 0⟩ := by
    have h1 : lookupA (setA st.tokens ctx.vault ⟨ctx.mint_offered, ctx.vault, 0⟩)
        ctx.vault = some d := hd
    rw [lookupA_setA_self] at h1
    exact (Option.some.inj h1).symm
  subst hs'
  subst hd'
  rcases hbr with ⟨heq, -⟩ | ⟨-, hov, hst'⟩
  · exact absurd heq hneq
  · subst hst'
    refine ⟨prof, s, hpda, hpda ▸ hprof, hmta, hoff, hvault, hopda, hvpda, hmint,
      hown, ha0, hw, hbal, hle, ?_, ?_, ?_, ?_, ?_⟩
    · exact lookupA_setA_self _ _ _
    · rw [Chain.lookupTok_setTok_self]
      simp
    · rw [Chain.lookupTok_setTok_other _ _ hneq, Chain.lookupTok_setTok_self]
    · rw [← hpda]
      exact lookupA_setA_self _ _ _
    · rfl

/-- Combined effects of a successful `accept_offer`, phrased through
lookups on the pre and post states.  The distinctness hypotheses say the
four token accounts involved are distinct accounts (the normal
configuration; without them per-account balance deltas are not
well-defined). -/
theorem accept_offer_effects {st : Chain} {ctx : AcceptOfferCtx} {st' : Chain}
    {tr : List LedgerOp} (h : accept_offer st ctx = .ok (st', tr))
    (hd1 : ctx.taker_token_account_offered ≠ ctx.maker_token_account_wanted)
    (hd2 : ctx.vault ≠ ctx.taker_token_account_wanted)
    (hd3 : ctx.vault ≠ ctx.taker_token_account_offered)
    (hd4 : ctx.vault ≠ ctx.maker_token_account_wanted)
    (hd5 : ctx.taker_token_account_wanted ≠ ctx.taker_token_account_offered)
    (hd6 : ctx.taker_token_account_wanted ≠ ctx.maker_token_account_wanted) :
    ∃ o mw tw tko va,
      st.lookupOff ctx.offer = some o ∧ o.maker = ctx.maker ∧
      st.lookupTok ctx.vault = some va ∧ va.amount = o.amount_offered ∧
      va.owner = ctx.vault ∧
      st.lookupTok ctx.maker_token_account_wanted = some mw ∧
      st.lookupTok ctx.taker_token_account_wanted = some tw ∧
      st.lookupTok ctx.taker_token_account_offered = some tko ∧
      o.amount_wanted ≤ tko.amount ∧
      st'.lookupTok ctx.taker_token_account_offered =
        some { tko with amount := tko.amount - o.amount_wanted } ∧
      st'.lookupTok ctx.maker_token_account_wanted =
        some { mw with amount := mw.amount + o.amount_wanted } ∧
      st'.lookupTok ctx.taker_token_account_wanted =
        some { tw with amount := tw.amount + o.amount_offered } ∧
      st'.lookupTok ctx.vault = none ∧
      st'.lookupOff ctx.offer = none ∧
      st'.offers = delA st.offers ctx.offer := by
  obtain ⟨o, mw, tw, tko, st1, st2, st3, ho, hseeds, hmaker, hvseeds, hvsome, hmw,
    hmwmint, hmwown, htw, htwmint, htwown, htko, htkomint, htkoown, hmints1, hmints2,
    hmo, hmwn, hcpi1, hcpi2, hcpi3, hst', htr⟩ := accept_offer_ok h
  -- transfer 1: taker pays the maker `amount_wanted`
  obtain ⟨s1, d1, hs1, hd1', hbal1, hmm1, how1, hsig1, hbr1⟩ := tokenTransfer_ok hcpi1
  have hs1e : s1 = tko := by
    rw [htko] at hs1
    exact (Option.some.inj hs1).symm
  have hd1e : d1 = mw := by
    rw [hmw] at hd1'
    exact (Option.some.inj hd1').symm
  subst hs1e
  subst hd1e
  rcases hbr1 with ⟨he, -⟩ | ⟨-, hov1, hst1⟩
  · exact absurd he hd1
  · subst hst1
    -- transfer 2: vault pays the taker `amount_offered`
    obtain ⟨va, d2, hs2, hd2', hbal2, hmm2, how2, hsig2, hbr2⟩ := tokenTransfer_ok hcpi2
    rw [Chain.lookupTok_setTok_other _ _ hd4, Chain.lookupTok_setTok_other _ _ hd3] at hs2
    have hva : st.lookupTok ctx.vault = some va := hs2
    have hd2e : d2 = tw := by
      rw [Chain.lookupTok_setTok_other _ _ hd6, Chain.lookupTok_setTok_other _ _ hd5,
        htw] at hd2'
      exact (Option.some.inj hd2').symm
    subst hd2e
    rcases hbr2 with ⟨he, -⟩ | ⟨-, hov2, hst2⟩
    · exact absurd he hd2
    · subst hst2
      -- close: the vault must be empty, so it held exactly `amount_offered`
      obtain ⟨sc, hsc, hsc0, hscown, hscsig, hst3⟩ := tokenCloseAccount_ok hcpi3
      have hsce : sc = { va with amount := va.amount - o.amount_offered } := by
        rw [Chain.lookupTok_setTok_other _ _ hd2, Chain.lookupTok_setTok_self] at hsc
        exact (Option.some.inj hsc).symm
      subst hsce
      have hvamt : va.amount = o.amount_offered := by
        have : va.amount - o.amount_offered = 0 := hsc0
        omega
      subst hst3
      subst hst'
      refine ⟨o, d1, d2, s1, va, ho, hmaker, hva, hvamt, how2, hmw, htw, htko,
        hbal1, ?_, ?_, ?_, ?_, ?_, ?_⟩
      · show ((((((st.setTok ctx.taker_token_account_offered _).setTok
          ctx.maker_token_account_wanted _).setTok ctx.vault _).setTok
          ctx.taker_token_account_wanted _).delTok ctx.vault).delOff
          ctx.offer).lookupTok ctx.taker_token_account_offered = _
        rw [show ∀ (X : Chain) (k : Pubkey), (X.delOff ctx.offer).lookupTok k =
          X.lookupTok k from fun _ _ => rfl]
        rw [Chain.lookupTok_delTok_other _ (Ne.symm hd3),
          Chain.lookupTok_setTok_other _ _ (Ne.symm hd5),
          Chain.lookupTok_setTok_other _ _ (Ne.symm hd3),
          Chain.lookupTok_setTok_other _ _ hd1, Chain.lookupTok_setTok_self]
      · show ((((((st.setTok ctx.taker_token_account_offered _).setTok
          ctx.maker_token_account_wanted _).setTok ctx.vault _).setTok
          ctx.taker_token_account_wanted _).delTok ctx.vault).delOff
          ctx.offer).lookupTok ctx.maker_token_account_wanted = _
        rw [show ∀ (X : Chain) (k : Pubkey), (X.delOff ctx.offer).lookupTok k =
          X.lookupTok k from fun _ _ => rfl]
        rw [Chain.lookupTok_delTok_other _ (Ne.symm hd4),
          Chain.lookupTok_setTok_other _ _ (Ne.symm hd6),
          Chain.lookupTok_setTok_other _ _ (Ne.symm hd4),
          Chain.lookupTok_setTok_self]
      · show ((((((st.setTok ctx.taker_token_account_offered _).setTok
          ctx.maker_token_account_wanted _).setTok ctx.vault _).setTok
          ctx.taker_token_account_wanted _).delTok ctx.vault).delOff
          ctx.offer).lookupTok ctx.taker_token_account_wanted = _
        rw [show ∀ (X : Chain) (k : Pubkey), (X.delOff ctx.offer).lookupTok k =
          X.lookupTok k from fun _ _ => rfl]
        rw [Chain.lookupTok_delTok_other _ (Ne.symm hd2), Chain.lookupTok_setTok_self]
      · show ((((((st.setTok ctx.taker_token_account_offered _).setTok
          ctx.maker_token_account_wanted _).setTok ctx.vault _).setTok
          ctx.taker_token_account_wanted _).delTok ctx.vault).delOff
          ctx.offer).lookupTok ctx.vault = _
        rw [show ∀ (X : Chain) (k : Pubkey), (X.delOff ctx.offer).lookupTok k =
          X.lookupTok k from fun _ _ => rfl]
        exact Chain.lookupTok_delTok_self _ _
      · exact Chain.lookupOff_delOff_self _ _
      · rfl

/-! ## Claim C2 -/

/-- **C2.** For every call to `create_offer` that succeeds, both amounts
are positive, the maker was initialized with some profile, and
afterwards: the `Offer` record exists with every field populated
(`offer_id` = the counter value, maker, both mints, both amounts, both
bumps, the timestamp), the vault holds exactly `amount_offered` units of
the offered mint with the vault itself as authority, and the maker's
offered-asset balance has decreased by exactly `amount_offered` (which
the pre-balance covered). -/
theorem c2_create_offer_success_postconditions (st : Chain) (ctx : CreateOfferCtx)
    (a w : Nat) (now : Int) (st' : Chain) (tr : List LedgerOp)
    (h : create_offer st ctx a w now = .ok (st', tr)) :
    0 < a ∧ 0 < w ∧
    ∃ prof mta,
      st.lookupProf (userProfilePda ctx.maker) = some prof ∧
      st.lookupTok ctx.maker_token_account = some mta ∧
      st'.lookupOff ctx.offer = some
        ⟨prof.offer_count, ctx.maker, ctx.mint_offered, ctx.mint_wanted, a, w,
         canonicalBump, canonicalBump, now⟩ ∧
      st'.lookupTok ctx.vault = some ⟨ctx.mint_offered, ctx.vault, a⟩ ∧
      a ≤ mta.amount ∧
      st'.lookupTok ctx.maker_token_account =
        some { mta with amount := mta.amount - a } := by
  obtain ⟨prof, mta, h1, hprof, hmta, h4, h5, h6, h7, h8, h9, ha0, hw, hbal, hle,
    hoff, hvault, hmk, hprof2, hoffers⟩ := create_offer_effects h
  exact ⟨ha0, hw, prof, mta, hprof, hmta, hoff, hvault, hbal, hmk⟩

/-- Witness for C2: the concrete scenario `create_offer(100 A, 50 B)`. -/
theorem c2_witness :
    chain2.lookupOff (offerPda sampleMaker 0) = some
      ⟨0, sampleMaker, mintA, mintB, 100, 50, canonicalBump, canonicalBump, 7⟩ ∧
    chain2.lookupTok (vaultPda (offerPda sampleMaker 0) mintA) =
      some ⟨mintA, vaultPda (offerPda sampleMaker 0) mintA, 100⟩ ∧
    chain2.lookupTok makerAcctA = some ⟨mintA, sampleMaker, 0⟩ := by
  obtain ⟨-, -, prof, mta, hprof, hmta, hoff, hvault, -, hmk⟩ :=
    c2_create_offer_success_postconditions chain1 sampleCreateCtx 100 50 7 chain2
      [.transferOp makerAcctA (vaultPda (offerPda sampleMaker 0) mintA) sampleMaker 100]
      (by rfl)
  have hp : prof = ⟨sampleMaker, 0⟩ := by
    have h1 : chain1.lookupProf (userProfilePda sampleMaker) = some prof := hprof
    have h2 : chain1.lookupProf (userProfilePda sampleMaker) = some ⟨sampleMaker, 0⟩ := by rfl
    rw [h2] at h1
    exact (Option.some.inj h1).symm
  have hm : mta = ⟨mintA, sampleMaker, 100⟩ := by
    have h1 : chain1.lookupTok makerAcctA = some mta := hmta
    have h2 : chain1.lookupTok makerAcctA = some ⟨mintA, sampleMaker, 100⟩ := by rfl
    rw [h2] at h1
    exact (Option.some.inj h1).symm
  subst hp
  subst hm
  exact ⟨hoff, hvault, hmk⟩

/-! ## Claim C6 -/

/-- **C6.** A `create_offer` call whose accounts pass Anchor's validation
but whose `amount_offered` or `amount_wanted` is zero fails with
`InvalidAmount`; the error result means the transaction's effects are
discarded, so no balance changes and no Offer is created. -/
theorem c6_zero_amount_fails_invalid_amount (st : Chain) (ctx : CreateOfferCtx)
    (a w : Nat) (now : Int) (prof : UserProfile) (mta : TokenAccount)
    (hzero : a = 0 ∨ w = 0)
    (h1 : ctx.user_profile = userProfilePda ctx.maker)
    (h2 : st.lookupProf ctx.user_profile = some prof)
    (h3 : prof.authority = ctx.authority)
    (h4 : ctx.offer = offerPda ctx.maker prof.offer_count)
    (h5 : st.lookupOff ctx.offer = none)
    (h6 : ctx.vault = vaultPda ctx.offer ctx.mint_offered)
    (h7 : st.lookupTok ctx.vault = none)
    (h8 : ctx.mint_offered ∈ st.mints)
    (h9 : ctx.mint_wanted ∈ st.mints)
    (h10 : st.lookupTok ctx.maker_token_account = some mta)
    (h11 : mta.mint = ctx.mint_offered)
    (h12 : mta.owner = ctx.maker) :
    create_offer st ctx a w now = .error .InvalidAmount := by
  unfold create_offer
  rw [require_pos h1, h2]
  rw [need_some]
  rw [require_pos h3, require_pos h4,
      require_pos (show (st.lookupOff ctx.offer).isNone = true by rw [h5]; rfl),
      require_pos h6,
      require_pos (show (st.lookupTok ctx.vault).isNone = true by rw [h7]; rfl),
      require_pos h8, require_pos h9, h10]
  rw [need_some]
  rw [require_pos h11, require_pos h12]
  rcases hzero with rfl | rfl
  · rw [require_neg (by omega)]
  · by_cases ha : 0 < a
    · rw [require_pos ha, require_neg (by omega)]
    · rw [require_neg ha]

/-- Witness for C6: `create_offer(0, 50)` on the initialized scenario
state fails with `InvalidAmount`. -/
theorem c6_witness :
    create_offer chain1 sampleCreateCtx 0 50 7 = .error .InvalidAmount :=
  c6_zero_amount_fails_invalid_amount chain1 sampleCreateCtx 0 50 7
    ⟨sampleMaker, 0⟩ ⟨mintA, sampleMaker, 100⟩ (Or.inl rfl) (by rfl) (by rfl) (by rfl)
    (by rfl) (by rfl) (by rfl) (by rfl) (by decide) (by decide) (by rfl) (by rfl) (by rfl)

/-! ## Claim C8 -/

/-- **C8.** `cancel_offer` succeeds only when the calling signer is the
maker recorded on the Offer (`has_one = maker`), and whenever the
supplied offer record's maker differs from the caller the instruction
fails (with the seed-constraint error or `Unauthorized`), producing no
state change (the error result discards the transaction). -/
theorem c8_cancel_only_maker :
    (∀ (st : Chain) (ctx : CancelOfferCtx) (r : Chain × List LedgerOp),
      cancel_offer st ctx = .ok r →
      ∃ o, st.lookupOff ctx.offer = some o ∧ o.maker = ctx.maker) ∧
    (∀ (st : Chain) (ctx : CancelOfferCtx) (o : Offer),
      st.lookupOff ctx.offer = some o → o.maker ≠ ctx.maker →
      ∃ e, cancel_offer st ctx = .error e) := by
  constructor
  · intro st ctx r h
    obtain ⟨st', tr⟩ := r
    obtain ⟨o, mta, st1, st2, ho, hseeds, hmaker, -⟩ := cancel_offer_ok h
    exact ⟨o, ho, hmaker⟩
  · intro st ctx o ho hne
    unfold cancel_offer
    rw [ho]
    rw [need_some]
    by_cases hseeds : ctx.offer = createProgramAddress
        [offerTag, ctx.maker.toBytes, toLeBytes8 ctx.offer_id, [o.bump]]
    · rw [require_pos hseeds, require_neg hne]
      exact ⟨.Unauthorized, rfl⟩
    · rw [require_neg hseeds]
      exact ⟨.ConstraintSeeds, rfl⟩

/-- Witness for C8: on the scenario state with the open offer, a
`cancel_offer` whose signer is the taker rather than the maker fails. -/
theorem c8_witness :
    ∃ e, cancel_offer chain2
      { offer_id := 0
        offer := offerPda sampleMaker 0
        vault := vaultPda (offerPda sampleMaker 0) mintA
        maker_token_account := makerAcctA
        mint_offered := mintA
        maker := sampleTaker } = .error e :=
  c8_cancel_only_maker.2 chain2 _
    ⟨0, sampleMaker, mintA, mintB, 100, 50, canonicalBump, canonicalBump, 7⟩
    (by rfl) (by decide)

/-! ## Claim C9 (corrected) -/

/-- **C9 counterexample.** With no `UserProfile` for the maker,
`create_offer` fails with the framework's `AccountNotInitialized`, not
with the program's declared `UninitializedUserProfile` error (that
variant is declared in `ErrorCode` but never raised anywhere in the
program). -/
theorem c9_counterexample :
    create_offer chain0 sampleCreateCtx 100 50 7 = .error .AccountNotInitialized ∧
    create_offer chain0 sampleCreateCtx 100 50 7 ≠ .error .UninitializedUserProfile := by
  have h : create_offer chain0 sampleCreateCtx 100 50 7 = .error .AccountNotInitialized := by
    rfl
  refine ⟨h, ?_⟩
  rw [h]
  intro hc
  injection hc with hc2
  exact Err.noConfusion hc2

/-- **C9 (amended).** If `initialize_user` has never run for the caller
(no `UserRecord` exists), `create_offer` fails — with Anchor's
`AccountNotInitialized` when the profile PDA is supplied (and with the
seed-constraint error when some other profile account is supplied) —
and has no effect. -/
theorem c9_uninitialized_profile_fails (st : Chain) (ctx : CreateOfferCtx)
    (a w : Nat) (now : Int)
    (h : st.lookupProf (userProfilePda ctx.maker) = none) :
    (∃ e, create_offer st ctx a w now = .error e) ∧
    (ctx.user_profile = userProfilePda ctx.maker →
      create_offer st ctx a w now = .error .AccountNotInitialized) := by
  constructor
  · by_cases hpda : ctx.user_profile = userProfilePda ctx.maker
    · refine ⟨.AccountNotInitialized, ?_⟩
      unfold create_offer
      rw [require_pos hpda, hpda, h]
      rfl
    · refine ⟨.ConstraintSeeds, ?_⟩
      unfold create_offer
      rw [require_neg hpda]
  · intro hpda
    unfold create_offer
    rw [require_pos hpda, hpda, h]
    rfl

/-- Witness for the amended C9 at the concrete uninitialized state. -/
theorem c9_witness :
    (∃ e, create_offer chain0 sampleCreateCtx 100 50 7 = .error e) ∧
    (sampleCreateCtx.user_profile = userProfilePda sampleCreateCtx.maker →
      create_offer chain0 sampleCreateCtx 100 50 7 = .error .AccountNotInitialized) :=
  c9_uninitialized_profile_fails chain0 sampleCreateCtx 100 50 7 (by rfl)

/-- Sufficiency: when every account the caller supplies satisfies the
validation constraints and the balances cover the trade, `accept_offer`
succeeds.  No hypothesis compares `ctx.taker` with `ctx.maker`. -/
theorem accept_offer_succeeds {st : Chain} {ctx : AcceptOfferCtx}
    (o : Offer) (va mw tw tko : TokenAccount)
    (ho : st.lookupOff ctx.offer = some o)
    (hseeds : ctx.offer = createProgramAddress
      [offerTag, ctx.maker.toBytes, toLeBytes8 ctx.offer_id, [o.bump]])
    (hmaker : o.maker = ctx.maker)
    (hvseeds : ctx.vault = createProgramAddress
      [vaultTag, ctx.offer.toBytes, ctx.mint_offered.toBytes, [o.vault_bump]])
    (hva : st.lookupTok ctx.vault = some va)
    (hvamint : va.mint = o.mint_offered)
    (hvaown : va.owner = ctx.vault)
    (hvaamt : va.amount = o.amount_offered)
    (hmw : st.lookupTok ctx.maker_token_account_wanted = some mw)
    (hmwmint : mw.mint = o.mint_wanted) (hmwown : mw.owner = ctx.maker)
    (htw : st.lookupTok ctx.taker_token_account_wanted = some tw)
    (htwmint : tw.mint = o.mint_offered) (htwown : tw.owner = ctx.taker)
    (htko : st.lookupTok ctx.taker_token_account_offered = some tko)
    (htkomint : tko.mint = o.mint_wanted) (htkoown : tko.owner = ctx.taker)
    (hm1 : ctx.mint_offered ∈ st.mints) (hm2 : ctx.mint_wanted ∈ st.mints)
    (hmo : ctx.mint_offered = o.mint_offered) (hmw2 : ctx.mint_wanted = o.mint_wanted)
    (hbal : o.amount_wanted ≤ tko.amount)
    (hov1 : mw.amount + o.amount_wanted ≤ U64_MAX)
    (hov2 : tw.amount + o.amount_offered ≤ U64_MAX)
    (hd1 : ctx.taker_token_account_offered ≠ ctx.maker_token_account_wanted)
    (hd2 : ctx.vault ≠ ctx.taker_token_account_wanted)
    (hd3 : ctx.vault ≠ ctx.taker_token_account_offered)
    (hd4 : ctx.vault ≠ ctx.maker_token_account_wanted)
    (hd5 : ctx.taker_token_account_wanted ≠ ctx.taker_token_account_offered)
    (hd6 : ctx.taker_token_account_wanted ≠ ctx.maker_token_account_wanted) :
    ∃ st' tr, accept_offer st ctx = .ok (st', tr) := by
  have hcpi1 : tokenTransfer st ctx.taker_token_account_offered
      ctx.maker_token_account_wanted ctx.taker o.amount_wanted [ctx.taker] =
      .ok ((st.setTok ctx.taker_token_account_offered
          { tko with amount := tko.amount - o.amount_wanted }).setTok
        ctx.maker_token_account_wanted
          { mw with amount := mw.amount + o.amount_wanted }) := by
    unfold tokenTransfer
    rw [htko, need_some, hmw, need_some, require_pos hbal,
      require_pos (show tko.mint = mw.mint by rw [htkomint, hmwmint]),
      require_pos htkoown,
      require_pos (show ctx.taker ∈ [ctx.taker] from List.mem_singleton.mpr rfl),
      if_neg hd1, require_pos hov1]
  have hcpi2 : tokenTransfer
      ((st.setTok ctx.taker_token_account_offered
          { tko with amount := tko.amount - o.amount_wanted }).setTok
        ctx.maker_token_account_wanted
          { mw with amount := mw.amount + o.amount_wanted })
      ctx.vault ctx.taker_token_account_wanted ctx.vault o.amount_offered
      [ctx.taker, createProgramAddress
        [vaultTag, ctx.offer.toBytes, o.mint_offered.toBytes, [o.vault_bump]]] =
      .ok ((((st.setTok ctx.taker_token_account_offered
          { tko with amount := tko.amount - o.amount_wanted }).setTok
        ctx.maker_token_account_wanted
          { mw with amount := mw.amount + o.amount_wanted }).setTok
        ctx.vault { va with amount := va.amount - o.amount_offered }).setTok
        ctx.taker_token_account_wanted
          { tw with amount := tw.amount + o.amount_offered }) := by
    unfold tokenTransfer
    rw [Chain.lookupTok_setTok_other _ _ hd4, Chain.lookupTok_setTok_other _ _ hd3,
      hva, need_some,
      Chain.lookupTok_setTok_other _ _ hd6, Chain.lookupTok_setTok_other _ _ hd5,
      htw, need_some,
      require_pos (show o.amount_offered ≤ va.amount by rw [hvaamt]),
      require_pos (show va.mint = tw.mint by rw [hvamint, htwmint]),
      require_pos hvaown,
      require_pos (show ctx.vault ∈ [ctx.taker, createProgramAddress
        [vaultTag, ctx.offer.toBytes, o.mint_offered.toBytes, [o.vault_bump]]] by
          rw [hvseeds, hmo]
          exact List.mem_cons_of_mem _ (List.mem_singleton.mpr rfl)),
      if_neg hd2, require_pos hov2]
  have hcpi3 : tokenCloseAccount
      ((((st.setTok ctx.taker_token_account_offered
          { tko with amount := tko.amount - o.amount_wanted }).setTok
        ctx.maker_token_account_wanted
          { mw with amount := mw.amount + o.amount_wanted }).setTok
        ctx.vault { va with amount := va.amount - o.amount_offered }).setTok
        ctx.taker_token_account_wanted
          { tw with amount := tw.amount + o.amount_offered })
      ctx.vault ctx.maker ctx.vault
      [ctx.taker, createProgramAddress
        [vaultTag, ctx.offer.toBytes, o.mint_offered.toBytes, [o.vault_bump]]] =
      .ok (((((st.setTok ctx.taker_token_account_offered
          { tko with amount := tko.amount - o.amount_wanted }).setTok
        ctx.maker_token_account_wanted
          { mw with amount := mw.amount + o.amount_wanted }).setTok
        ctx.vault { va with amount := va.amount - o.amount_offered }).setTok
        ctx.taker_token_account_wanted
          { tw with amount := tw.amount + o.amount_offered }).delTok ctx.vault) := by
    unfold tokenCloseAccount
    rw [Chain.lookupTok_setTok_other _ _ hd2, Chain.lookupTok_setTok_self, need_some,
      require_pos (show va.amount - o.amount_offered = 0 by rw [hvaamt]; omega),
      require_pos hvaown,
      require_pos (show ctx.vault ∈ [ctx.taker, createProgramAddress
        [vaultTag, ctx.offer.toBytes, o.mint_offered.toBytes, [o.vault_bump]]] by
          rw [hvseeds, hmo]
          exact List.mem_cons_of_mem _ (List.mem_singleton.mpr rfl))]
  unfold accept_offer
  rw [ho, need_some, require_pos hseeds, require_pos hmaker, require_pos hvseeds,
    require_pos (show (st.lookupTok ctx.vault).isSome = true by rw [hva]; rfl),
    hmw, need_some, require_pos hmwmint, require_pos hmwown,
    htw, need_some, require_pos htwmint, require_pos htwown,
    htko, need_some, require_pos htkomint, require_pos htkoown,
    require_pos hm1, require_pos hm2, require_pos hmo, require_pos hmw2]
  rw [afterOk_ok_arg hcpi1]
  rw [afterOk_ok_arg hcpi2]
  rw [afterOk_ok_arg hcpi3]
  exact ⟨_, _, rfl⟩

/-! ## Claim C1 -/

/-- **C1.** For every open Offer, a successful `accept_offer` (with the
four supplied token accounts pairwise distinct where they interact — the
normal configuration) decreases the taker's wanted-asset balance by
exactly `amount_wanted`, increases the maker's wanted-asset balance by
exactly `amount_wanted`, increases the taker's offered-asset balance by
exactly `amount_offered`, leaves the vault with zero balance and closed
(the account no longer exists), and removes the Offer record. -/
theorem c1_accept_offer_swap_effects (st : Chain) (ctx : AcceptOfferCtx)
    (st' : Chain) (tr : List LedgerOp)
    (h : accept_offer st ctx = .ok (st', tr))
    (hd1 : ctx.taker_token_account_offered ≠ ctx.maker_token_account_wanted)
    (hd2 : ctx.vault ≠ ctx.taker_token_account_wanted)
    (hd3 : ctx.vault ≠ ctx.taker_token_account_offered)
    (hd4 : ctx.vault ≠ ctx.maker_token_account_wanted)
    (hd5 : ctx.taker_token_account_wanted ≠ ctx.taker_token_account_offered)
    (hd6 : ctx.taker_token_account_wanted ≠ ctx.maker_token_account_wanted) :
    ∃ o mw tw tko va,
      st.lookupOff ctx.offer = some o ∧
      st.lookupTok ctx.taker_token_account_offered = some tko ∧
      st'.lookupTok ctx.taker_token_account_offered =
        some { tko with amount := tko.amount - o.amount_wanted } ∧
      o.amount_wanted ≤ tko.amount ∧
      st.lookupTok ctx.maker_token_account_wanted = some mw ∧
      st'.lookupTok ctx.maker_token_account_wanted =
        some { mw with amount := mw.amount + o.amount_wanted } ∧
      st.lookupTok ctx.taker_token_account_wanted = some tw ∧
      st'.lookupTok ctx.taker_token_account_wanted =
        some { tw with amount := tw.amount + o.amount_offered } ∧
      st.lookupTok ctx.vault = some va ∧ va.amount = o.amount_offered ∧
      st'.lookupTok ctx.vault = none ∧
      st'.lookupOff ctx.offer = none := by
  obtain ⟨o, mw, tw, tko, va, ho, hmaker, hva, hvamt, hvown, hmw, htw, htko, hbal,
    htko', hmw', htw', hv', hoff', hoffers⟩ :=
    accept_offer_effects h hd1 hd2 hd3 hd4 hd5 hd6
  exact ⟨o, mw, tw, tko, va, ho, htko, htko', hbal, hmw, hmw', htw, htw', hva,
    hvamt, hv', hoff'⟩

/-- Witness for C1: in the concrete scenario the taker's B balance goes
50 → 0, the maker's B balance 0 → 50, the taker's A balance 0 → 100, the
vault is closed and the offer is gone. -/
theorem c1_witness :
    chain3.lookupTok takerAcctB = some ⟨mintB, sampleTaker, 0⟩ ∧
    chain3.lookupTok makerAcctB = some ⟨mintB, sampleMaker, 50⟩ ∧
    chain3.lookupTok takerAcctA = some ⟨mintA, sampleTaker, 100⟩ ∧
    chain3.lookupTok (vaultPda (offerPda sampleMaker 0) mintA) = none ∧
    chain3.lookupOff (offerPda sampleMaker 0) = none := by
  obtain ⟨o, mw, tw, tko, va, ho, htko, htko', hbal, hmw, hmw', htw, htw', hva,
    hvamt, hv', hoff'⟩ :=
    c1_accept_offer_swap_effects chain2 sampleAcceptCtx chain3
      [.transferOp takerAcctB makerAcctB sampleTaker 50,
       .transferOp (vaultPda (offerPda sampleMaker 0) mintA) takerAcctA
         (vaultPda (offerPda sampleMaker 0) mintA) 100,
       .closeOp (vaultPda (offerPda sampleMaker 0) mintA) sampleMaker
         (vaultPda (offerPda sampleMaker 0) mintA)]
      (by rfl) (by decide) (by decide) (by decide) (by decide) (by decide) (by decide)
  have hoe : o = ⟨0, sampleMaker, mintA, mintB, 100, 50, canonicalBump, canonicalBump, 7⟩ := by
    have h1 : chain2.lookupOff (offerPda sampleMaker 0) = some o := ho
    have h2 : chain2.lookupOff (offerPda sampleMaker 0) =
      some ⟨0, sampleMaker, mintA, mintB, 100, 50, canonicalBump, canonicalBump, 7⟩ := by rfl
    rw [h2] at h1
    exact (Option.some.inj h1).symm
  have htkoe : tko = ⟨mintB, sampleTaker, 50⟩ := by
    have h1 : chain2.lookupTok takerAcctB = some tko := htko
    have h2 : chain2.lookupTok takerAcctB = some ⟨mintB, sampleTaker, 50⟩ := by rfl
    rw [h2] at h1
    exact (Option.some.inj h1).symm
  have hmwe : mw = ⟨mintB, sampleMaker, 0⟩ := by
    have h1 : chain2.lookupTok makerAcctB = some mw := hmw
    have h2 : chain2.lookupTok makerAcctB = some ⟨mintB, sampleMaker, 0⟩ := by rfl
    rw [h2] at h1
    exact (Option.some.inj h1).symm
  have htwe : tw = ⟨mintA, sampleTaker, 0⟩ := by
    have h1 : chain2.lookupTok takerAcctA = some tw := htw
    have h2 : chain2.lookupTok takerAcctA = some ⟨mintA, sampleTaker, 0⟩ := by rfl
    rw [h2] at h1
    exact (Option.some.inj h1).symm
  subst hoe
  subst htkoe
  subst hmwe
  subst htwe
  exact ⟨htko', hmw', htw', hv', hoff'⟩

/-! ## Claim C10 -/

/-- **C10.** `accept_offer` imposes no requirement that the taker differ
from the maker: for every open Offer, if the caller equals the Offer's
maker and supplies correctly-typed, funded, distinct accounts they own,
`accept_offer` succeeds with the same balance effects as for any other
taker.  The hypothesis `ctx.taker = ctx.maker` is deliberately unused in
the proof: the success conditions are identical for any taker. -/
theorem c10_maker_can_accept_own_offer (st : Chain) (ctx : AcceptOfferCtx)
    (o : Offer) (va mw tw tko : TokenAccount)
    (hself : ctx.taker = ctx.maker)
    (ho : st.lookupOff ctx.offer = some o)
    (hseeds : ctx.offer = createProgramAddress
      [offerTag, ctx.maker.toBytes, toLeBytes8 ctx.offer_id, [o.bump]])
    (hmaker : o.maker = ctx.maker)
    (hvseeds : ctx.vault = createProgramAddress
      [vaultTag, ctx.offer.toBytes, ctx.mint_offered.toBytes, [o.vault_bump]])
    (hva : st.lookupTok ctx.vault = some va)
    (hvamint : va.mint = o.mint_offered)
    (hvaown : va.owner = ctx.vault)
    (hvaamt : va.amount = o.amount_offered)
    (hmw : st.lookupTok ctx.maker_token_account_wanted = some mw)
    (hmwmint : mw.mint = o.mint_wanted) (hmwown : mw.owner = ctx.maker)
    (htw : st.lookupTok ctx.taker_token_account_wanted = some tw)
    (htwmint : tw.mint = o.mint_offered) (htwown : tw.owner = ctx.taker)
    (htko : st.lookupTok ctx.taker_token_account_offered = some tko)
    (htkomint : tko.mint = o.mint_wanted) (htkoown : tko.owner = ctx.taker)
    (hm1 : ctx.mint_offered ∈ st.mints) (hm2 : ctx.mint_wanted ∈ st.mints)
    (hmo : ctx.mint_offered = o.mint_offered) (hmw2 : ctx.mint_wanted = o.mint_wanted)
    (hbal : o.amount_wanted ≤ tko.amount)
    (hov1 : mw.amount + o.amount_wanted ≤ U64_MAX)
    (hov2 : tw.amount + o.amount_offered ≤ U64_MAX)
    (hd1 : ctx.taker_token_account_offered ≠ ctx.maker_token_account_wanted)
    (hd2 : ctx.vault ≠ ctx.taker_token_account_wanted)
    (hd3 : ctx.vault ≠ ctx.taker_token_account_offered)
    (hd4 : ctx.vault ≠ ctx.maker_token_account_wanted)
    (hd5 : ctx.taker_token_account_wanted ≠ ctx.taker_token_account_offered)
    (hd6 : ctx.taker_token_account_wanted ≠ ctx.maker_token_account_wanted) :
    ∃ st' tr, accept_offer st ctx = .ok (st', tr) ∧
      st'.lookupTok ctx.taker_token_account_offered =
        some { tko with amount := tko.amount - o.amount_wanted } ∧
      st'.lookupTok ctx.maker_token_account_wanted =
        some { mw with amount := mw.amount + o.amount_wanted } ∧
      st'.lookupTok ctx.taker_token_account_wanted =
        some { tw with amount := tw.amount + o.amount_offered } ∧
      st'.lookupTok ctx.vault = none ∧
      st'.lookupOff ctx.offer = none := by
  obtain ⟨st', tr, heq⟩ := accept_offer_succeeds o va mw tw tko ho hseeds hmaker
    hvseeds hva hvamint hvaown hvaamt hmw hmwmint hmwown htw htwmint htwown htko
    htkomint htkoown hm1 hm2 hmo hmw2 hbal hov1 hov2 hd1 hd2 hd3 hd4 hd5 hd6
  obtain ⟨o2, mw2, tw2, tko2, va2, ho2, hmaker2, hva2, hvamt2, hvown2, hmw2', htw2',
    htko2', hbal2, htkof, hmwf, htwf, hvf, hofff, hoffers2⟩ :=
    accept_offer_effects heq hd1 hd2 hd3 hd4 hd5 hd6
  have ho2e : o2 = o := by
    have h1 := ho.symm.trans ho2
    exact (Option.some.inj h1).symm
  have hmw2e : mw2 = mw := by
    have h1 := hmw.symm.trans hmw2'
    exact (Option.some.inj h1).symm
  have htw2e : tw2 = tw := by
    have h1 := htw.symm.trans htw2'
    exact (Option.some.inj h1).symm
  have htko2e : tko2 = tko := by
    have h1 := htko.symm.trans htko2'
    exact (Option.some.inj h1).symm
  subst ho2e
  subst hmw2e
  subst htw2e
  subst htko2e
  exact ⟨st', tr, heq, htkof, hmwf, htwf, hvf, hofff⟩

/-- Witness for C10: the maker accepts their own 100 A for 50 B offer,
paying themselves from a second B account; both transfers settle and the
offer closes. -/
theorem c10_witness :
    ∃ st' tr, accept_offer chain2self sampleSelfAcceptCtx = .ok (st', tr) ∧
      st'.lookupTok makerAcctB2 = some ⟨mintB, sampleMaker, 50 - 50⟩ ∧
      st'.lookupTok makerAcctB = some ⟨mintB, sampleMaker, 0 + 50⟩ ∧
      st'.lookupTok makerAcctA = some ⟨mintA, sampleMaker, 0 + 100⟩ ∧
      st'.lookupTok (vaultPda (offerPda sampleMaker 0) mintA) = none ∧
      st'.lookupOff (offerPda sampleMaker 0) = none :=
  c10_maker_can_accept_own_offer chain2self sampleSelfAcceptCtx
    ⟨0, sampleMaker, mintA, mintB, 100, 50, canonicalBump, canonicalBump, 7⟩
    ⟨mintA, vaultPda (offerPda sampleMaker 0) mintA, 100⟩
    ⟨mintB, sampleMaker, 0⟩ ⟨mintA, sampleMaker, 0⟩ ⟨mintB, sampleMaker, 50⟩
    (by rfl) (by rfl) (by rfl) (by rfl) (by rfl) (by rfl) (by rfl) (by rfl) (by rfl)
    (by rfl) (by rfl) (by rfl) (by rfl) (by rfl) (by rfl) (by rfl) (by rfl) (by rfl)
    (by decide) (by decide) (by rfl) (by rfl) (by decide) (by decide) (by decide)
    (by decide) (by decide) (by decide) (by decide) (by decide) (by decide)

/-! ## Claim C5 -/

/-- Counter step: a successful `create_offer` stores the current counter
value as the new offer's id and bumps the maker's counter by exactly 1. -/
theorem create_offer_counter_step {st : Chain} {ctx : CreateOfferCtx} {a w : Nat}
    {now : Int} {st' : Chain} {tr : List LedgerOp}
    (h : create_offer st ctx a w now = .ok (st', tr)) :
    (∃ o, st'.lookupOff ctx.offer = some o ∧ o.offer_id = offerCountOf st ctx.maker) ∧
    offerCountOf st' ctx.maker = offerCountOf st ctx.maker + 1 := by
  obtain ⟨prof, mta, h1, hprof, hmta, h4, h5, h6, h7, h8, h9, ha0, hw, hbal, hle,
    hoff, hvault, hmk, hprof2, hoffers⟩ := create_offer_effects h
  have hcount : offerCountOf st ctx.maker = prof.offer_count := by
    unfold offerCountOf
    rw [hprof]
  have hcount' : offerCountOf st' ctx.maker = prof.offer_count + 1 := by
    unfold offerCountOf
    rw [hprof2]
  refine ⟨⟨_, hoff, ?_⟩, ?_⟩
  · rw [hcount]
  · rw [hcount, hcount']

/-- Sequencing: the ids collected by `runCreates` for one maker form the
arithmetic progression starting at the maker's initial counter value. -/
theorem runCreates_ids (maker : Pubkey) :
    ∀ (steps : List (CreateOfferCtx × Nat × Nat × Int)) (st stN : Chain)
      (ids : List Nat),
      (∀ s ∈ steps, s.1.maker = maker) →
      runCreates st steps = .ok (stN, ids) →
      ids = List.range' (offerCountOf st maker) steps.length := by
  intro steps
  induction steps with
  | nil =>
    intro st stN ids hm h
    unfold runCreates at h
    have := Except.ok.inj h
    injection this with e1 e2
    rw [← e2]
    rfl
  | cons s rest ih =>
    intro st stN ids hm h
    obtain ⟨c, a, w, t⟩ := s
    unfold runCreates at h
    obtain ⟨p, hcr, h⟩ := exBind_ok h
    obtain ⟨st1, tr⟩ := p
    obtain ⟨o, hlo, h⟩ := need_ok h
    obtain ⟨q, hrun, h⟩ := exBind_ok h
    obtain ⟨st2, ids'⟩ := q
    have hpair := Except.ok.inj h
    injection hpair with e1 e2
    rw [← e2]
    have hcm : c.maker = maker := hm _ (List.mem_cons_self _ _)
    obtain ⟨⟨o2, ho2, hid⟩, hstep⟩ := create_offer_counter_step hcr
    have hoe : o = o2 := by
      have h1 := hlo.symm.trans ho2
      exact Option.some.inj h1
    have hids' := ih st1 st2 ids' (fun x hx => hm x (List.mem_cons_of_mem _ hx)) hrun
    rw [hids', List.length_cons, List.range'_succ]
    rw [hoe, hid, hcm]
    rw [hcm] at hstep
    rw [hstep]

/-- **C5.** (a) For one user, a run of `N` sequential successful
`create_offer` calls starting from a fresh counter produces exactly the
offer ids `0, …, N-1`, with no repeats — each call stores the current
`offer_count` as the id and increments the counter by 1
(`create_offer_counter_step` is the inductive step).  (b) When the
counter holds `u64::MAX` and the accounts pass validation with positive
amounts, `create_offer` fails with `CounterOverflow`, creating no Offer
(the error discards the transaction). -/
theorem c5_counter_monotonicity_and_overflow :
    (∀ (maker : Pubkey) (steps : List (CreateOfferCtx × Nat × Nat × Int))
      (st stN : Chain) (ids : List Nat),
      (∀ s ∈ steps, s.1.maker = maker) →
      offerCountOf st maker = 0 →
      runCreates st steps = .ok (stN, ids) →
      ids = List.range steps.length ∧ ids.Nodup) ∧
    (∀ (st : Chain) (ctx : CreateOfferCtx) (a w : Nat) (now : Int)
      (prof : UserProfile) (mta : TokenAccount),
      ctx.user_profile = userProfilePda ctx.maker →
      st.lookupProf ctx.user_profile = some prof →
      prof.authority = ctx.authority →
      ctx.offer = offerPda ctx.maker prof.offer_count →
      st.lookupOff ctx.offer = none →
      ctx.vault = vaultPda ctx.offer ctx.mint_offered →
      st.lookupTok ctx.vault = none →
      ctx.mint_offered ∈ st.mints →
      ctx.mint_wanted ∈ st.mints →
      st.lookupTok ctx.maker_token_account = some mta →
      mta.mint = ctx.mint_offered →
      mta.owner = ctx.maker →
      0 < a → 0 < w →
      prof.offer_count = U64_MAX →
      create_offer st ctx a w now = .error .CounterOverflow) := by
  constructor
  · intro maker steps st stN ids hm h0 hrun
    have hids := runCreates_ids maker steps st stN ids hm hrun
    rw [h0] at hids
    rw [hids, ← List.range_eq_range']
    exact ⟨rfl, List.nodup_range _⟩
  · intro st ctx a w now prof mta h1 h2 h3 h4 h5 h6 h7 h8 h9 h10 h11 h12 ha hw hmax
    unfold create_offer
    rw [require_pos h1, h2, need_some, require_pos h3, require_pos h4,
      require_pos (show (st.lookupOff ctx.offer).isNone = true by rw [h5]; rfl),
      require_pos h6,
      require_pos (show (st.lookupTok ctx.vault).isNone = true by rw [h7]; rfl),
      require_pos h8, require_pos h9, h10, need_some, require_pos h11,
      require_pos h12, require_pos ha, require_pos hw, hmax,
      show checkedAddU64 U64_MAX 1 = none by
        unfold checkedAddU64
        rw [if_neg (by omega)]]
    rfl

/-- Witness for C5: two sequential creates from a fresh counter yield
ids `[0, 1]`; a create at a saturated counter fails with
`CounterOverflow`. -/
theorem c5_witness :
    ([0, 1] = List.range sampleCreateSteps.length ∧ ([0, 1] : List Nat).Nodup) ∧
    create_offer chainMax sampleCreateCtxMax 5 5 9 = .error .CounterOverflow :=
  ⟨c5_counter_monotonicity_and_overflow.1 sampleMaker sampleCreateSteps chain1
      chainAfterTwo [0, 1] (by decide) (by rfl) (by rfl),
   c5_counter_monotonicity_and_overflow.2 chainMax sampleCreateCtxMax 5 5 9
      ⟨sampleMaker, U64_MAX⟩ ⟨mintA, sampleMaker, 100⟩ (by rfl) (by rfl) (by rfl)
      (by rfl) (by rfl) (by rfl) (by rfl) (by decide) (by decide) (by rfl) (by rfl)
      (by rfl) (by decide) (by decide) (by rfl)⟩

/-! ## Claim C7 (corrected) -/

/-- **C7 counterexample.** On the open scenario offer, supplying a
mismatched `mint_offered` descriptor (here `mintB`, with the genuine
vault account) fails with the vault's seed-constraint error — raised by
Anchor account validation before the instruction body's `InvalidMint`
check is reached — not with `InvalidMint` as the claim states. -/
theorem c7_counterexample :
    accept_offer chain2 { sampleAcceptCtx with mint_offered := mintB } =
      .error .ConstraintSeeds ∧
    accept_offer chain2 { sampleAcceptCtx with mint_offered := mintB } ≠
      .error .InvalidMint := by
  have h : accept_offer chain2 { sampleAcceptCtx with mint_offered := mintB } =
      .error .ConstraintSeeds := by rfl
  refine ⟨h, ?_⟩
  rw [h]
  intro hc
  injection hc with hc2
  exact Err.noConfusion hc2

/-- **C7 (amended).** For every open Offer: (A) `accept_offer` never
succeeds unless every supplied mint descriptor and token-account mint
matches the Offer's recorded `mint_offered`/`mint_wanted`; (B-D) a
mismatch in the `mint_wanted` descriptor or in any of the three token
accounts' mints fails with `InvalidMint`, exactly as the claim states;
(E) a mismatched `mint_offered` descriptor, however, fails earlier, at
the vault's seed derivation, with the seed-constraint error rather than
`InvalidMint`.  In every case the failure leaves all balances and the
Offer record unchanged (the error result discards the transaction). -/
theorem c7_mint_mismatch_fails (st : Chain) (ctx : AcceptOfferCtx) (o : Offer)
    (ho : st.lookupOff ctx.offer = some o)
    (hseeds : ctx.offer = createProgramAddress
      [offerTag, ctx.maker.toBytes, toLeBytes8 ctx.offer_id, [o.bump]])
    (hmaker : o.maker = ctx.maker) :
    (∀ st' tr, accept_offer st ctx = .ok (st', tr) →
      ctx.mint_offered = o.mint_offered ∧ ctx.mint_wanted = o.mint_wanted ∧
      ∃ mw tw tko,
        st.lookupTok ctx.maker_token_account_wanted = some mw ∧
        mw.mint = o.mint_wanted ∧
        st.lookupTok ctx.taker_token_account_wanted = some tw ∧
        tw.mint = o.mint_offered ∧
        st.lookupTok ctx.taker_token_account_offered = some tko ∧
        tko.mint = o.mint_wanted) ∧
    (∀ mw, ctx.vault = createProgramAddress
        [vaultTag, ctx.offer.toBytes, ctx.mint_offered.toBytes, [o.vault_bump]] →
      (st.lookupTok ctx.vault).isSome →
      st.lookupTok ctx.maker_token_account_wanted = some mw →
      mw.mint ≠ o.mint_wanted →
      accept_offer st ctx = .error .InvalidMint) ∧
    (∀ mw tw, ctx.vault = createProgramAddress
        [vaultTag, ctx.offer.toBytes, ctx.mint_offered.toBytes, [o.vault_bump]] →
      (st.lookupTok ctx.vault).isSome →
      st.lookupTok ctx.maker_token_account_wanted = some mw →
      mw.mint = o.mint_wanted → mw.owner = ctx.maker →
      st.lookupTok ctx.taker_token_account_wanted = some tw →
      tw.mint ≠ o.mint_offered →
      accept_offer st ctx = .error .InvalidMint) ∧
    (∀ mw tw tko, ctx.vault = createProgramAddress
        [vaultTag, ctx.offer.toBytes, ctx.mint_offered.toBytes, [o.vault_bump]] →
      (st.lookupTok ctx.vault).isSome →
      st.lookupTok ctx.maker_token_account_wanted = some mw →
      mw.mint = o.mint_wanted → mw.owner = ctx.maker →
      st.lookupTok ctx.taker_token_account_wanted = some tw →
      tw.mint = o.mint_offered → tw.owner = ctx.taker →
      st.lookupTok ctx.taker_token_account_offered = some tko →
      tko.mint ≠ o.mint_wanted →
      accept_offer st ctx = .error .InvalidMint) ∧
    (∀ mw tw tko, ctx.vault = createProgramAddress
        [vaultTag, ctx.offer.toBytes, ctx.mint_offered.toBytes, [o.vault_bump]] →
      (st.lookupTok ctx.vault).isSome →
      st.lookupTok ctx.maker_token_account_wanted = some mw →
      mw.mint = o.mint_wanted → mw.owner = ctx.maker →
      st.lookupTok ctx.taker_token_account_wanted = some tw →
      tw.mint = o.mint_offered → tw.owner = ctx.taker →
      st.lookupTok ctx.taker_token_account_offered = some tko →
      tko.mint = o.mint_wanted → tko.owner = ctx.taker →
      ctx.mint_offered ∈ st.mints → ctx.mint_wanted ∈ st.mints →
      ctx.mint_offered = o.mint_offered →
      ctx.mint_wanted ≠ o.mint_wanted →
      accept_offer st ctx = .error .InvalidMint) ∧
    (ctx.vault = vaultPda ctx.offer o.mint_offered →
      o.vault_bump = canonicalBump →
      ctx.mint_offered ≠ o.mint_offered →
      accept_offer st ctx = .error .ConstraintSeeds) := by
  refine ⟨?_, ?_, ?_, ?_, ?_, ?_⟩
  · intro st' tr h
    obtain ⟨o2, mw, tw, tko, st1, st2, st3, ho2, -, -, -, -, hmw, hmwmint, -, htw,
      htwmint, -, htko, htkomint, -, -, -, hmo, hmwn, -, -, -, -, -⟩ :=
      accept_offer_ok h
    have hoe : o2 = o := by
      have h1 := ho.symm.trans ho2
      exact (Option.some.inj h1).symm
    subst hoe
    exact ⟨hmo, hmwn, mw, tw, tko, hmw, hmwmint, htw, htwmint, htko, htkomint⟩
  · intro mw hvseeds hvsome hmw hne
    unfold accept_offer
    rw [ho, need_some, require_pos hseeds, require_pos hmaker, require_pos hvseeds,
      require_pos hvsome, hmw, need_some, require_neg hne]
  · intro mw tw hvseeds hvsome hmw hmwmint hmwown htw hne
    unfold accept_offer
    rw [ho, need_some, require_pos hseeds, require_pos hmaker, require_pos hvseeds,
      require_pos hvsome, hmw, need_some, require_pos hmwmint, require_pos hmwown,
      htw, need_some, require_neg hne]
  · intro mw tw tko hvseeds hvsome hmw hmwmint hmwown htw htwmint htwown htko hne
    unfold accept_offer
    rw [ho, need_some, require_pos hseeds, require_pos hmaker, require_pos hvseeds,
      require_pos hvsome, hmw, need_some, require_pos hmwmint, require_pos hmwown,
      htw, need_some, require_pos htwmint, require_pos htwown,
      htko, need_some, require_neg hne]
  · intro mw tw tko hvseeds hvsome hmw hmwmint hmwown htw htwmint htwown htko
      htkomint htkoown hm1 hm2 hmo hne
    unfold accept_offer
    rw [ho, need_some, require_pos hseeds, require_pos hmaker, require_pos hvseeds,
      require_pos hvsome, hmw, need_some, require_pos hmwmint, require_pos hmwown,
      htw, need_some, require_pos htwmint, require_pos htwown,
      htko, need_some, require_pos htkomint, require_pos htkoown,
      require_pos hm1, require_pos hm2, require_pos hmo, require_neg hne]
  · intro hvreal hbump hne
    unfold accept_offer
    rw [ho, need_some, require_pos hseeds, require_pos hmaker]
    rw [require_neg (show ¬ ctx.vault = createProgramAddress
        [vaultTag, ctx.offer.toBytes, ctx.mint_offered.toBytes, [o.vault_bump]] by
      intro hc
      rw [hvreal, hbump] at hc
      have := createProgramAddress_inj hc
      simp only [List.cons.injEq] at this
      exact hne (Pubkey.toBytes_inj this.2.2.1).symm)]

/-- Witness for the amended C7: a mismatched taker receiving-account
mint on the scenario state fails with `InvalidMint` (part C applied with
the taker's B account, whose mint is not the offered mint A), and a
mismatched `mint_offered` descriptor fails with the seed-constraint
error (part E). -/
theorem c7_witness :
    accept_offer chain2 { sampleAcceptCtx with taker_token_account_wanted := takerAcctB } =
      .error .InvalidMint ∧
    accept_offer chain2 { sampleAcceptCtx with mint_offered := mintB } =
      .error .ConstraintSeeds := by
  have hpart := c7_mint_mismatch_fails chain2
    { sampleAcceptCtx with taker_token_account_wanted := takerAcctB }
    ⟨0, sampleMaker, mintA, mintB, 100, 50, canonicalBump, canonicalBump, 7⟩
    (by rfl) (by rfl) (by rfl)
  have hpart2 := c7_mint_mismatch_fails chain2
    { sampleAcceptCtx with mint_offered := mintB }
    ⟨0, sampleMaker, mintA, mintB, 100, 50, canonicalBump, canonicalBump, 7⟩
    (by rfl) (by rfl) (by rfl)
  exact ⟨hpart.2.2.1 ⟨mintB, sampleMaker, 0⟩ ⟨mintB, sampleTaker, 50⟩ (by rfl)
      (by rfl) (by rfl) (by rfl) (by rfl) (by rfl) (by decide),
    hpart2.2.2.2.2.2 (by rfl) (by rfl) (by decide)⟩

/-! ## Claim C3 -/

/-- A token transfer never changes any account's mint or owner, only
amounts (and only of the two accounts involved). -/
theorem tokenTransfer_meta {st st' : Chain} {source dest authority : Pubkey}
    {amount : Nat} {signers : List Pubkey}
    (h : tokenTransfer st source dest authority amount signers = .ok st') (k : Pubkey) :
    Option.map (fun x => (x.mint, x.owner)) (st'.lookupTok k) =
    Option.map (fun x => (x.mint, x.owner)) (st.lookupTok k) := by
  obtain ⟨s, d, hs, hd, -, -, -, -, hbr⟩ := tokenTransfer_ok h
  rcases hbr with ⟨-, rfl⟩ | ⟨hsd, -, rfl⟩
  · rfl
  · by_cases hk : k = dest
    · subst hk
      rw [Chain.lookupTok_setTok_self, hd]
      simp
    · rw [Chain.lookupTok_setTok_other _ _ hk]
      by_cases hk2 : k = source
      · subst hk2
        rw [Chain.lookupTok_setTok_self, hs]
        simp
      · rw [Chain.lookupTok_setTok_other _ _ hk2]

/-- **C3.** Every transfer out of the escrow vault — in `accept_offer`
and in `cancel_offer` — is authorized solely by the vault's derived
keyless authority, reconstructed from the seeds
`[b"vault", offer, mint_offered]` plus the stored `vault_bump`: the
supplied vault address equals that derived address (a keyless,
non-wallet address), the vault token account's authority is the vault
PDA itself and not the maker, and in the CPI trace every transfer whose
source is the vault, and every vault closure, carries the vault itself
as authority — never a user signature.  (`Signer` accounts are wallet
keys, which is the `isWallet` hypothesis.) -/
theorem c3_vault_authority_discipline :
    (∀ (st : Chain) (ctx : AcceptOfferCtx) (st' : Chain) (tr : List LedgerOp),
      accept_offer st ctx = .ok (st', tr) →
      ctx.taker.isWallet = true →
      ctx.maker.isWallet = true →
      ∃ o va,
        st.lookupOff ctx.offer = some o ∧
        ctx.vault = createProgramAddress
          [vaultTag, ctx.offer.toBytes, o.mint_offered.toBytes, [o.vault_bump]] ∧
        ctx.vault.isWallet = false ∧
        st.lookupTok ctx.vault = some va ∧
        va.owner = ctx.vault ∧ va.owner ≠ ctx.maker ∧
        (∀ s d au n, LedgerOp.transferOp s d au n ∈ tr → s = ctx.vault →
          au = ctx.vault) ∧
        (∀ acc d au, LedgerOp.closeOp acc d au ∈ tr → au = ctx.vault)) ∧
    (∀ (st : Chain) (ctx : CancelOfferCtx) (st' : Chain) (tr : List LedgerOp),
      cancel_offer st ctx = .ok (st', tr) →
      ctx.maker.isWallet = true →
      ∃ o va,
        st.lookupOff ctx.offer = some o ∧
        ctx.vault = createProgramAddress
          [vaultTag, ctx.offer.toBytes, o.mint_offered.toBytes, [o.vault_bump]] ∧
        ctx.vault.isWallet = false ∧
        st.lookupTok ctx.vault = some va ∧
        va.owner = ctx.vault ∧ va.owner ≠ ctx.maker ∧
        (∀ s d au n, LedgerOp.transferOp s d au n ∈ tr → s = ctx.vault →
          au = ctx.vault) ∧
        (∀ acc d au, LedgerOp.closeOp acc d au ∈ tr → au = ctx.vault)) := by
  constructor
  · intro st ctx st' tr h hwTaker hwMaker
    obtain ⟨o, mw, tw, tko, st1, st2, st3, ho, hseeds, hmaker, hvseeds, hvsome, hmw,
      hmwmint, hmwown, htw, htwmint, htwown, htko, htkomint, htkoown, hm1, hm2,
      hmo, hmwn, hcpi1, hcpi2, hcpi3, hst', htr⟩ := accept_offer_ok h
    have hvseeds' : ctx.vault = createProgramAddress
        [vaultTag, ctx.offer.toBytes, o.mint_offered.toBytes, [o.vault_bump]] := by
      rw [hvseeds, hmo]
    have hvkeyless : ctx.vault.isWallet = false := by
      rw [hvseeds']
      rfl
    obtain ⟨va, hva⟩ := Option.isSome_iff_exists.mp hvsome
    obtain ⟨s2, d2, hs2, hd2, -, -, how2, -, -⟩ := tokenTransfer_ok hcpi2
    have hmeta := tokenTransfer_meta hcpi1 ctx.vault
    rw [hs2, hva] at hmeta
    have hpair : (s2.mint, s2.owner) = (va.mint, va.owner) := by
      simpa using hmeta
    have hvaown : va.owner = ctx.vault := by
      have h1 : s2.owner = va.owner := congrArg Prod.snd hpair
      rw [← h1, how2]
    have hvnotmaker : va.owner ≠ ctx.maker := by
      rw [hvaown]
      intro hc
      rw [hc, hwMaker] at hvkeyless
      exact Bool.noConfusion hvkeyless
    have htkone : ctx.taker_token_account_offered ≠ ctx.vault := by
      intro hc
      obtain ⟨s1, d1, hs1, hd1, -, -, how1, -, -⟩ := tokenTransfer_ok hcpi1
      rw [hc, hva] at hs1
      have : va = s1 := Option.some.inj hs1
      have hto : ctx.taker = ctx.vault := by
        rw [← how1, ← this, hvaown]
      rw [hto, hvkeyless] at hwTaker
      exact Bool.noConfusion hwTaker
    subst htr
    refine ⟨o, va, ho, hvseeds', hvkeyless, hva, hvaown, hvnotmaker, ?_, ?_⟩
    · intro s d au n hmem hsv
      simp only [List.mem_cons, List.not_mem_nil, or_false] at hmem
      rcases hmem with h1 | h2 | h3
      · injection h1 with e1 e2 e3 e4
        rw [hsv] at e1
        exact absurd e1.symm htkone
      · injection h2
      · exact LedgerOp.noConfusion h3
    · intro acc d au hmem
      simp only [List.mem_cons, List.not_mem_nil, or_false] at hmem
      rcases hmem with h1 | h2 | h3
      · exact LedgerOp.noConfusion h1
      · exact LedgerOp.noConfusion h2
      · injection h3
  · intro st ctx st' tr h hwMaker
    obtain ⟨o, mta, st1, st2, ho, hseeds, hmaker, hvseeds, hvsome, hmta, hmtamint,
      hmtaown, hm1, hcpi1, hcpi2, hst', htr⟩ := cancel_offer_ok h
    obtain ⟨va, d1, hs1, hd1, hbal1, hmm1, how1, hsig1, hbr1⟩ := tokenTransfer_ok hcpi1
    have hvkeyless : ctx.vault.isWallet = false := by
      rw [hvseeds]
      rfl
    have hvsigner : ctx.vault = createProgramAddress
        [vaultTag, ctx.offer.toBytes, o.mint_offered.toBytes, [o.vault_bump]] := by
      simp only [List.mem_cons, List.not_mem_nil, or_false] at hsig1
      rcases hsig1 with hc | hc
      · rw [hc, hwMaker] at hvkeyless
        exact Bool.noConfusion hvkeyless
      · exact hc
    have hvnotmaker : va.owner ≠ ctx.maker := by
      rw [how1]
      intro hc
      rw [hc, hwMaker] at hvkeyless
      exact Bool.noConfusion hvkeyless
    subst htr
    refine ⟨o, va, ho, hvsigner, hvkeyless, hs1, how1, hvnotmaker, ?_, ?_⟩
    · intro s d au n hmem hsv
      simp only [List.mem_cons, List.not_mem_nil, or_false] at hmem
      rcases hmem with h1 | h2
      · injection h1
      · exact LedgerOp.noConfusion h2
    · intro acc d au hmem
      simp only [List.mem_cons, List.not_mem_nil, or_false] at hmem
      rcases hmem with h1 | h2
      · exact LedgerOp.noConfusion h1
      · injection h2

/-- Witness for C3: the concrete accepted and cancelled scenarios. -/
theorem c3_witness :
    (∃ o va,
      chain2.lookupOff (offerPda sampleMaker 0) = some o ∧
      vaultPda (offerPda sampleMaker 0) mintA = createProgramAddress
        [vaultTag, (offerPda sampleMaker 0).toBytes, o.mint_offered.toBytes,
         [o.vault_bump]] ∧
      (vaultPda (offerPda sampleMaker 0) mintA).isWallet = false ∧
      chain2.lookupTok (vaultPda (offerPda sampleMaker 0) mintA) = some va ∧
      va.owner = vaultPda (offerPda sampleMaker 0) mintA ∧
      va.owner ≠ sampleMaker ∧
      (∀ s d au n, LedgerOp.transferOp s d au n ∈
          [LedgerOp.transferOp takerAcctB makerAcctB sampleTaker 50,
           LedgerOp.transferOp (vaultPda (offerPda sampleMaker 0) mintA) takerAcctA
             (vaultPda (offerPda sampleMaker 0) mintA) 100,
           LedgerOp.closeOp (vaultPda (offerPda sampleMaker 0) mintA) sampleMaker
             (vaultPda (offerPda sampleMaker 0) mintA)] →
        s = vaultPda (offerPda sampleMaker 0) mintA →
        au = vaultPda (offerPda sampleMaker 0) mintA) ∧
      (∀ acc d au, LedgerOp.closeOp acc d au ∈
          [LedgerOp.transferOp takerAcctB makerAcctB sampleTaker 50,
           LedgerOp.transferOp (vaultPda (offerPda sampleMaker 0) mintA) takerAcctA
             (vaultPda (offerPda sampleMaker 0) mintA) 100,
           LedgerOp.closeOp (vaultPda (offerPda sampleMaker 0) mintA) sampleMaker
             (vaultPda (offerPda sampleMaker 0) mintA)] →
        au = vaultPda (offerPda sampleMaker 0) mintA)) :=
  c3_vault_authority_discipline.1 chain2 sampleAcceptCtx chain3
    [LedgerOp.transferOp takerAcctB makerAcctB sampleTaker 50,
     LedgerOp.transferOp (vaultPda (offerPda sampleMaker 0) mintA) takerAcctA
       (vaultPda (offerPda sampleMaker 0) mintA) 100,
     LedgerOp.closeOp (vaultPda (offerPda sampleMaker 0) mintA) sampleMaker
       (vaultPda (offerPda sampleMaker 0) mintA)]
    (by rfl) (by rfl) (by rfl)

/-! ## Claim C4 -/

/-- When no Offer record sits at the canonical address for
`(maker, offer_id)`, every `accept_offer` referencing that pair fails:
whatever offer account the caller supplies, the seeds check ties it back
(through well-formedness and injectivity of the derivation) to the one
canonical address, where no record exists. -/
theorem accept_fails_on_absent {st : Chain} {m : Pubkey} {i : Nat}
    (hwf : WFOffers st) (hi : i < 2 ^ 64)
    (habs : st.lookupOff (offerPda m i) = none) :
    ∀ ctx : AcceptOfferCtx, ctx.maker = m → ctx.offer_id = i →
      ∀ r, accept_offer st ctx ≠ .ok r := by
  intro ctx hm hid r h
  obtain ⟨st', tr⟩ := r
  obtain ⟨o, mw, tw, tko, st1, st2, st3, ho, hseeds, -, -, -, -, -, -, -, -, -, -,
    -, -, -, -, -, -, -, -, -, -, -⟩ := accept_offer_ok h
  obtain ⟨hcan0, hbump0, hvbump0, hlt0⟩ := hwf _ (lookupA_some_mem ho)
  have hcan : ctx.offer = offerPda o.maker o.offer_id := hcan0
  have hbump : o.bump = canonicalBump := hbump0
  have hlt : o.offer_id < 2 ^ 64 := hlt0
  rw [hbump] at hseeds
  have heq : offerPda o.maker o.offer_id = offerPda m i := by
    rw [← hcan, ← hm, ← hid]
    exact hseeds
  obtain ⟨hm2, hi2⟩ := offerPda_inj hlt hi heq
  rw [hm2, hi2] at hcan
  rw [hcan] at ho
  rw [habs] at ho
  exact Option.noConfusion ho

/-- The `cancel_offer` counterpart of `accept_fails_on_absent`. -/
theorem cancel_fails_on_absent {st : Chain} {m : Pubkey} {i : Nat}
    (hwf : WFOffers st) (hi : i < 2 ^ 64)
    (habs : st.lookupOff (offerPda m i) = none) :
    ∀ ctx : CancelOfferCtx, ctx.maker = m → ctx.offer_id = i →
      ∀ r, cancel_offer st ctx ≠ .ok r := by
  intro ctx hm hid r h
  obtain ⟨st', tr⟩ := r
  obtain ⟨o, mta, st1, st2, ho, hseeds, -, -, -, -, -, -, -, -, -, -, -⟩ :=
    cancel_offer_ok h
  obtain ⟨hcan0, hbump0, hvbump0, hlt0⟩ := hwf _ (lookupA_some_mem ho)
  have hcan : ctx.offer = offerPda o.maker o.offer_id := hcan0
  have hbump : o.bump = canonicalBump := hbump0
  have hlt : o.offer_id < 2 ^ 64 := hlt0
  rw [hbump] at hseeds
  have heq : offerPda o.maker o.offer_id = offerPda m i := by
    rw [← hcan, ← hm, ← hid]
    exact hseeds
  obtain ⟨hm2, hi2⟩ := offerPda_inj hlt hi heq
  rw [hm2, hi2] at hcan
  rw [hcan] at ho
  rw [habs] at ho
  exact Option.noConfusion ho

/-- **C4.** Once an Offer is resolved — by a successful `accept_offer`
or a successful `cancel_offer` — its record no longer exists, the offer
store stays well-formed, and every subsequent `accept_offer` or
`cancel_offer` referencing the same `(maker, offer_id)` fails (and, the
result being an error, produces no balance change): Settled and
Cancelled are terminal, both represented as "record absent". -/
theorem c4_settled_and_cancelled_terminal :
    (∀ (st : Chain) (ctx : AcceptOfferCtx) (st' : Chain) (tr : List LedgerOp)
      (o : Offer),
      WFOffers st →
      accept_offer st ctx = .ok (st', tr) →
      st.lookupOff ctx.offer = some o →
      st'.lookupOff (offerPda o.maker o.offer_id) = none ∧
      WFOffers st' ∧
      (∀ ctx2 : AcceptOfferCtx, ctx2.maker = o.maker → ctx2.offer_id = o.offer_id →
        ∀ r, accept_offer st' ctx2 ≠ .ok r) ∧
      (∀ ctx3 : CancelOfferCtx, ctx3.maker = o.maker → ctx3.offer_id = o.offer_id →
        ∀ r, cancel_offer st' ctx3 ≠ .ok r)) ∧
    (∀ (st : Chain) (ctx : CancelOfferCtx) (st' : Chain) (tr : List LedgerOp)
      (o : Offer),
      WFOffers st →
      cancel_offer st ctx = .ok (st', tr) →
      st.lookupOff ctx.offer = some o →
      st'.lookupOff (offerPda o.maker o.offer_id) = none ∧
      WFOffers st' ∧
      (∀ ctx2 : AcceptOfferCtx, ctx2.maker = o.maker → ctx2.offer_id = o.offer_id →
        ∀ r, accept_offer st' ctx2 ≠ .ok r) ∧
      (∀ ctx3 : CancelOfferCtx, ctx3.maker = o.maker → ctx3.offer_id = o.offer_id →
        ∀ r, cancel_offer st' ctx3 ≠ .ok r)) := by
  constructor
  · intro st ctx st' tr o hwf h ho
    obtain ⟨o2, mw, tw, tko, st1, st2, st3, ho2, -, -, -, -, -, -, -, -, -, -, -,
      -, -, -, -, -, -, hcpi1, hcpi2, hcpi3, hst', -⟩ := accept_offer_ok h
    have hoffers : st'.offers = delA st.offers ctx.offer := by
      rw [hst']
      show delA st3.offers ctx.offer = delA st.offers ctx.offer
      rw [(tokenCloseAccount_frame hcpi3).1, (tokenTransfer_frame hcpi2).1,
        (tokenTransfer_frame hcpi1).1]
    obtain ⟨hcan0, hbump0, hvbump0, hlt0⟩ := hwf _ (lookupA_some_mem ho)
    have hcan : ctx.offer = offerPda o.maker o.offer_id := hcan0
    have hlt : o.offer_id < 2 ^ 64 := hlt0
    have habs' : st'.lookupOff (offerPda o.maker o.offer_id) = none := by
      rw [← hcan]
      show lookupA st'.offers ctx.offer = none
      rw [hoffers]
      exact lookupA_delA_self _ _
    have hwf' : WFOffers st' := by
      intro p hp
      rw [hoffers] at hp
      exact hwf _ (List.mem_filter.mp hp).1
    exact ⟨habs', hwf',
      fun ctx2 hm2 hi2 => accept_fails_on_absent hwf' hlt habs' ctx2 hm2 hi2,
      fun ctx3 hm3 hi3 => cancel_fails_on_absent hwf' hlt habs' ctx3 hm3 hi3⟩
  · intro st ctx st' tr o hwf h ho
    obtain ⟨o2, mta, st1, st2, ho2, -, -, -, -, -, -, -, -, hcpi1, hcpi2, hst', -⟩ :=
      cancel_offer_ok h
    have hoffers : st'.offers = delA st.offers ctx.offer := by
      rw [hst']
      show delA st2.offers ctx.offer = delA st.offers ctx.offer
      rw [(tokenCloseAccount_frame hcpi2).1, (tokenTransfer_frame hcpi1).1]
    obtain ⟨hcan0, hbump0, hvbump0, hlt0⟩ := hwf _ (lookupA_some_mem ho)
    have hcan : ctx.offer = offerPda o.maker o.offer_id := hcan0
    have hlt : o.offer_id < 2 ^ 64 := hlt0
    have habs' : st'.lookupOff (offerPda o.maker o.offer_id) = none := by
      rw [← hcan]
      show lookupA st'.offers ctx.offer = none
      rw [hoffers]
      exact lookupA_delA_self _ _
    have hwf' : WFOffers st' := by
      intro p hp
      rw [hoffers] at hp
      exact hwf _ (List.mem_filter.mp hp).1
    exact ⟨habs', hwf',
      fun ctx2 hm2 hi2 => accept_fails_on_absent hwf' hlt habs' ctx2 hm2 hi2,
      fun ctx3 hm3 hi3 => cancel_fails_on_absent hwf' hlt habs' ctx3 hm3 hi3⟩

/-- Witness for C4: after the concrete acceptance, the offer record is
gone and any later accept or cancel of `(maker, 0)` fails. -/
theorem c4_witness :
    chain3.lookupOff (offerPda sampleMaker 0) = none ∧
    WFOffers chain3 ∧
    (∀ ctx2 : AcceptOfferCtx, ctx2.maker = sampleMaker → ctx2.offer_id = 0 →
      ∀ r, accept_offer chain3 ctx2 ≠ .ok r) ∧
    (∀ ctx3 : CancelOfferCtx, ctx3.maker = sampleMaker → ctx3.offer_id = 0 →
      ∀ r, cancel_offer chain3 ctx3 ≠ .ok r) :=
  c4_settled_and_cancelled_terminal.1 chain2 sampleAcceptCtx chain3
    [LedgerOp.transferOp takerAcctB makerAcctB sampleTaker 50,
     LedgerOp.transferOp (vaultPda (offerPda sampleMaker 0) mintA) takerAcctA
       (vaultPda (offerPda sampleMaker 0) mintA) 100,
     LedgerOp.closeOp (vaultPda (offerPda sampleMaker 0) mintA) sampleMaker
       (vaultPda (offerPda sampleMaker 0) mintA)]
    ⟨0, sampleMaker, mintA, mintB, 100, 50, canonicalBump, canonicalBump, 7⟩
    (by unfold WFOffers; decide) (by rfl) (by rfl)

end P2PSwap
